import Mathlib

/-!
# rpcs3: event flags (`sys_event_flag.cpp`); reservation core, stack operations and address translation (`vm.cpp`)

A shallow embedding of `Emu/SysCalls/lv2/sys_event_flag.cpp` and of the reservation
part, the guest stack operations and `get_addr` of `Emu/Memory/vm.cpp`.

Conventions.
* `u32` / `u64` values are natural numbers; the theorems bound them where the width matters.
  `~x` is taken at the width of the operand (`u32_not`, `u64_not`).
* `assert(c)` depends on the build: with `NDEBUG` it is a no-op, otherwise a failed assertion
  aborts.  Functions that reach an `assert` take `ndebug : Bool` and return `none` when an
  assertion aborts.
* Every function is executed under the mutex it takes in the source, so each call is one
  atomic step on the state.
-/

namespace rpcs3

/-! ## Constants and types declared in headers -/

/-- Modelled from the spec: the guest-ABI result codes (`OK`, `EFAULT`, `EINVAL`, `ESRCH`,
`EBUSY`, `EPERM`, `ETIMEDOUT`, `ECANCELED`); their numeric values are declared in a header
that is not part of the sources, so they are kept symbolic. -/
inductive ErrorCode where
  | CELL_OK
  | CELL_EFAULT
  | CELL_EINVAL
  | CELL_ESRCH
  | CELL_EBUSY
  | CELL_EPERM
  | CELL_ETIMEDOUT
  | CELL_ECANCELED
deriving DecidableEq, Repr

open ErrorCode

/-- Modelled from the spec: wait mode `AND = 0x1` (declared in `sys_event_flag.h`). -/
def SYS_EVENT_FLAG_WAIT_AND : Nat := 0x01
/-- Modelled from the spec: wait mode `OR = 0x2` (declared in `sys_event_flag.h`). -/
def SYS_EVENT_FLAG_WAIT_OR : Nat := 0x02
/-- Modelled from the spec: clear flag `CLEAR = 0x10` (declared in `sys_event_flag.h`). -/
def SYS_EVENT_FLAG_WAIT_CLEAR : Nat := 0x10
/-- Modelled from the spec: clear flag `CLEAR_ALL = 0x20` (declared in `sys_event_flag.h`). -/
def SYS_EVENT_FLAG_WAIT_CLEAR_ALL : Nat := 0x20

/-- Modelled from the spec: protocol `FIFO` (declared in `sleep_queue_type.h`); the four
protocol constants are pairwise distinct, which is all the development uses. -/
def SYS_SYNC_FIFO : Nat := 1
/-- Modelled from the spec: protocol `PRIORITY` (declared in `sleep_queue_type.h`). -/
def SYS_SYNC_PRIORITY : Nat := 2
/-- Modelled from the spec: protocol `PRIORITY_INHERIT` (declared in `sleep_queue_type.h`). -/
def SYS_SYNC_PRIORITY_INHERIT : Nat := 3
/-- Modelled from the spec: protocol `RETRY` (declared in `sleep_queue_type.h`). -/
def SYS_SYNC_RETRY : Nat := 4

/-- Modelled from the spec: waiter type `SINGLE` (declared in `sys_event_flag.h`). -/
def SYS_SYNC_WAITER_SINGLE : Nat := 0x10000
/-- Modelled from the spec: waiter type `MULTIPLE` (declared in `sys_event_flag.h`). -/
def SYS_SYNC_WAITER_MULTIPLE : Nat := 0x20000

/-- Bitwise complement of a `u32` operand. -/
def u32_not (x : Nat) : Nat := 0xFFFFFFFF ^^^ x

/-- Bitwise complement of a `u64` operand. -/
def u64_not (x : Nat) : Nat := 0xFFFFFFFFFFFFFFFF ^^^ x

/-- Modelled from the spec: a `Waiter` record `{ tid, bitptn : u64, mode : u32 }`
(`EventFlagWaiter`, declared in `sys_event_flag.h`). -/
structure EventFlagWaiter where
  tid : Nat
  mode : Nat
  bitptn : Nat
deriving DecidableEq, Repr

/-- Modelled from the spec: the `EventFlag` object
`{ flags : u64, protocol, type, name : u64, waiters : ordered list, signal : queue of tids }`
(declared in `sys_event_flag.h`).  The `signal` queue is a FIFO of thread ids: `push` appends
at the back, `try_peek` reads the front, `pop` removes the front.  Its capacity is not
modelled. -/
structure EventFlag where
  flags : Nat
  signal : List Nat
  waiters : List EventFlagWaiter
  protocol : Nat
  type : Nat
  name : Nat
deriving DecidableEq, Repr

/-- Modelled from the spec: the object-ID table (`register`, `lookup`, `remove`), which is an
external collaborator of the event-flag code.  Objects are held by value; a mutation made
through the `shared_ptr` obtained from `CheckId` is written back with `store`. -/
structure IdManager where
  objs : Nat → Option EventFlag
  next_id : Nat

/-- Modelled from the spec: `lookup(id) -> obj|⊥` (`CheckId`). -/
def IdManager.CheckId (m : IdManager) (id : Nat) : Option EventFlag := m.objs id

/-- Modelled from the spec: the effect on the table of mutating the object registered as `id`. -/
def IdManager.store (m : IdManager) (id : Nat) (ef : EventFlag) : IdManager :=
  { m with objs := fun i => if i = id then some ef else m.objs i }

/-- Modelled from the spec: `remove(id)` (`RemoveID`). -/
def IdManager.RemoveID (m : IdManager) (id : Nat) : IdManager :=
  { m with objs := fun i => if i = id then none else m.objs i }

/-! ## `sys_event_flag.cpp` -/

/-- The match condition written out in `EventFlag::check` (lines 22-23) and in
`sys_event_flag_trywait` (lines 282-283). -/
def flag_match (mode bitptn flag_set : Nat) : Bool :=
  ((mode &&& SYS_EVENT_FLAG_WAIT_AND != 0) && (flag_set &&& bitptn == bitptn)) ||
  ((mode &&& SYS_EVENT_FLAG_WAIT_OR != 0) && (flag_set &&& bitptn != 0))

/-- The clear step written out at lines 166-173, 203-210 and 285-292: the new value of
`ef->flags`. -/
def flag_clear (mode bitptn flags : Nat) : Nat :=
  if mode &&& SYS_EVENT_FLAG_WAIT_CLEAR ≠ 0 then flags &&& u64_not bitptn
  else if mode &&& SYS_EVENT_FLAG_WAIT_CLEAR_ALL ≠ 0 then flags &&& 0
  else flags

/-- The loop of `EventFlag::check` (lines 20-51) over the remaining waiters, carrying
`target` and `highest_prio`.  `GetThread tid` is the priority of the CPU thread `tid`, if
that thread exists. -/
def check_loop (ndebug : Bool) (GetThread : Nat → Option Nat) (protocol flag_set : Nat) :
    List EventFlagWaiter → Nat → Nat → Option Nat
  | [], target, _ => some target
  | w :: ws, target, highest_prio =>
    if flag_match w.mode w.bitptn flag_set then
      if protocol = SYS_SYNC_FIFO then
        some w.tid
      else if protocol = SYS_SYNC_PRIORITY then
        match GetThread w.tid with
        | some prio =>
          if prio < highest_prio then
            check_loop ndebug GetThread protocol flag_set ws w.tid prio
          else
            check_loop ndebug GetThread protocol flag_set ws target highest_prio
        | none =>
          if ndebug then check_loop ndebug GetThread protocol flag_set ws target highest_prio
          else none
      else
        if ndebug then check_loop ndebug GetThread protocol flag_set ws target highest_prio
        else none
    else
      check_loop ndebug GetThread protocol flag_set ws target highest_prio

/-- `EventFlag::check` (lines 14-54). -/
def EventFlag.check (ndebug : Bool) (GetThread : Nat → Option Nat) (ef : EventFlag) :
    Option Nat :=
  check_loop ndebug GetThread ef.protocol ef.flags ef.waiters 0 0xFFFFFFFFFFFFFFFF

/-- The two `switch` statements on `mode` at lines 126-139 and 260-273: `true` when neither
returns `CELL_EINVAL`. -/
def mode_ok (mode : Nat) : Bool :=
  (mode &&& 0xf == SYS_EVENT_FLAG_WAIT_AND || mode &&& 0xf == SYS_EVENT_FLAG_WAIT_OR) &&
  (mode &&& u32_not 0xf == 0 || mode &&& u32_not 0xf == SYS_EVENT_FLAG_WAIT_CLEAR ||
    mode &&& u32_not 0xf == SYS_EVENT_FLAG_WAIT_CLEAR_ALL)

/-- `sys_event_flag_trywait` (lines 253-303).  `result` is `none` for a null pointer and
otherwise the content of the pointed-to cell; the new content is returned. -/
def sys_event_flag_trywait (m : IdManager) (eflag_id bitptn mode : Nat) (result : Option Nat) :
    ErrorCode × IdManager × Option Nat :=
  let result := result.map (fun _ => 0)
  if ¬ mode_ok mode then (CELL_EINVAL, m, result)
  else
    match m.CheckId eflag_id with
    | none => (CELL_ESRCH, m, result)
    | some ef =>
      let flag_set := ef.flags
      if flag_match mode bitptn flag_set then
        let ef1 := { ef with flags := flag_clear mode bitptn ef.flags }
        (CELL_OK, m.store eflag_id ef1, result.map (fun _ => flag_set))
      else
        (CELL_EBUSY, m, result)

/-- Outcome of `sys_event_flag_wait` before its polling loop (lines 124-184): either the call
has returned, or it has reached the loop with the given `counter` and `max_counter`. -/
inductive WaitEntry where
  | ret (code : ErrorCode) (m : IdManager) (result : Option Nat)
  | poll (m : IdManager) (result : Option Nat) (counter max_counter : Nat)

/-- `sys_event_flag_wait` up to the polling loop (lines 119-184), called by thread `tid`
(`GetCurrentPPUThread().GetId()`). -/
def sys_event_flag_wait_entry (ndebug : Bool) (GetThread : Nat → Option Nat) (tid : Nat)
    (m : IdManager) (eflag_id bitptn mode : Nat) (result : Option Nat) (timeout : Nat) :
    Option WaitEntry :=
  let result := result.map (fun _ => 0)
  if ¬ mode_ok mode then some (.ret CELL_EINVAL m result)
  else
    match m.CheckId eflag_id with
    | none => some (.ret CELL_ESRCH m result)
    | some ef =>
      if ef.type = SYS_SYNC_WAITER_SINGLE ∧ ef.waiters.length > 0 then
        some (.ret CELL_EPERM m result)
      else
        let rec_ : EventFlagWaiter := { bitptn := bitptn, mode := mode, tid := tid }
        let ef1 := { ef with waiters := ef.waiters ++ [rec_] }
        match ef1.check ndebug GetThread with
        | none => none
        | some target =>
          if target = tid then
            let flag_set := ef1.flags
            let ef2 := { ef1 with waiters := ef1.waiters.dropLast }
            let ef3 := { ef2 with flags := flag_clear mode bitptn ef2.flags }
            some (.ret CELL_OK (m.store eflag_id ef3) (result.map (fun _ => flag_set)))
          else
            some (.poll (m.store eflag_id ef1) result 0
              (if timeout ≠ 0 then timeout / 1000 else 0xFFFFFFFFFFFFFFFF))

/-- Outcome of one pass through the body of the polling loop of `sys_event_flag_wait`. -/
inductive WaitIter where
  | ret (code : ErrorCode) (ef : EventFlag) (result : Option Nat)
  | again (ef : EventFlag) (counter : Nat)
deriving DecidableEq, Repr

/-- One pass through the body of `while (true)` in `sys_event_flag_wait` (lines 188-249) on
the object `ef` the caller holds; `stopped` is what `Emu.IsStopped()` answers in this pass. -/
def sys_event_flag_wait_iter (ndebug : Bool) (GetThread : Nat → Option Nat) (stopped : Bool)
    (tid : Nat) (ef : EventFlag) (bitptn mode : Nat) (result : Option Nat)
    (counter max_counter : Nat) : Option WaitIter :=
  if ef.signal.head? = some tid then
    let flag_set := ef.flags
    let ef1 := { ef with signal := ef.signal.tail }
    if ef1.waiters.any (fun w => w.tid == tid) then
      let ef2 := { ef1 with waiters := ef1.waiters.eraseP (fun w => w.tid == tid) }
      let ef3 := { ef2 with flags := flag_clear mode bitptn ef2.flags }
      match ef3.check ndebug GetThread with
      | none => none
      | some target =>
        let ef4 := if target ≠ 0 then { ef3 with signal := ef3.signal ++ [target] } else ef3
        some (.ret CELL_OK ef4 (result.map (fun _ => flag_set)))
    else
      some (.ret CELL_ECANCELED ef1 result)
  else if counter > max_counter then
    some (.ret CELL_ETIMEDOUT
      { ef with waiters := ef.waiters.eraseP (fun w => w.tid == tid) } result)
  else if stopped then
    some (.ret CELL_OK ef result)
  else
    some (.again ef ((counter + 1) % 2 ^ 64))

/-- `sys_event_flag_set` (lines 305-320). -/
def sys_event_flag_set (ndebug : Bool) (GetThread : Nat → Option Nat) (m : IdManager)
    (eflag_id bitptn : Nat) : Option (ErrorCode × IdManager) :=
  match m.CheckId eflag_id with
  | none => some (CELL_ESRCH, m)
  | some ef =>
    let ef1 := { ef with flags := ef.flags ||| bitptn }
    match ef1.check ndebug GetThread with
    | none => none
    | some target =>
      let ef2 := if target ≠ 0 then { ef1 with signal := ef1.signal ++ [target] } else ef1
      some (CELL_OK, m.store eflag_id ef2)

/-- `sys_event_flag_clear` (lines 322-332). -/
def sys_event_flag_clear (m : IdManager) (eflag_id bitptn : Nat) : ErrorCode × IdManager :=
  match m.CheckId eflag_id with
  | none => (CELL_ESRCH, m)
  | some ef => (CELL_OK, m.store eflag_id { ef with flags := ef.flags &&& bitptn })

/-- `sys_event_flag_cancel` (lines 334-370); `num` is `none` for a null pointer and otherwise
the content of the pointed-to cell; `stopped` is what `Emu.IsStopped()` answers. -/
def sys_event_flag_cancel (stopped : Bool) (m : IdManager) (eflag_id : Nat)
    (num : Option Nat) : ErrorCode × IdManager × Option Nat :=
  match m.CheckId eflag_id with
  | none => (CELL_ESRCH, m, num)
  | some ef =>
    let tids := ef.waiters.map (fun w => w.tid)
    let ef1 := { ef with waiters := [] }
    let ef2 := { ef1 with signal := ef1.signal ++ tids }
    if stopped then (CELL_OK, m.store eflag_id ef2, num)
    else (CELL_OK, m.store eflag_id ef2, num.map (fun _ => tids.length % 2 ^ 32))

/-- `sys_event_flag_destroy` (lines 102-117). -/
def sys_event_flag_destroy (m : IdManager) (eflag_id : Nat) : ErrorCode × IdManager :=
  match m.CheckId eflag_id with
  | none => (CELL_ESRCH, m)
  | some ef =>
    if ef.waiters.length ≠ 0 then (CELL_EBUSY, m)
    else (CELL_OK, m.RemoveID eflag_id)

/-- Modelled from the spec: the attribute record `attr{protocol, pshared, type, name_u64}`
(`sys_event_flag_attr`, declared in `sys_event_flag.h`); the fields are taken in host order. -/
structure sys_event_flag_attr where
  protocol : Nat
  pshared : Nat
  type : Nat
  name_u64 : Nat
deriving DecidableEq, Repr

/-- Modelled from the spec: `register(obj, type) -> id` (`GetNewId`): the object is entered
under the next id of the table, which is returned. -/
def IdManager.GetNewId (m : IdManager) (ef : EventFlag) : Nat × IdManager :=
  (m.next_id,
    { objs := fun i => if i = m.next_id then some ef else m.objs i, next_id := m.next_id + 1 })

/-- Modelled from the spec: the constructor `EventFlag(init, protocol, type, name)` (declared in
`sys_event_flag.h`): `flags = init`, the given protocol, type and name, no waiter, no signal. -/
def EventFlag.create (init protocol type name : Nat) : EventFlag :=
  ⟨init, [], [], protocol, type, name⟩

/-- `sys_event_flag_create` (lines 56-100); `eflag_id` and `attr` are `none` for null
pointers; returns the code, the table and the content of `*eflag_id`. -/
def sys_event_flag_create (m : IdManager) (eflag_id : Option Nat)
    (attr : Option sys_event_flag_attr) (init : Nat) : ErrorCode × IdManager × Option Nat :=
  match eflag_id with
  | none => (CELL_EFAULT, m, eflag_id)
  | some _ =>
    match attr with
    | none => (CELL_EFAULT, m, eflag_id)
    | some a =>
      if ¬ (a.protocol = SYS_SYNC_PRIORITY ∨ a.protocol = SYS_SYNC_RETRY ∨
          a.protocol = SYS_SYNC_PRIORITY_INHERIT ∨ a.protocol = SYS_SYNC_FIFO) then
        (CELL_EINVAL, m, eflag_id)
      else if a.pshared ≠ 0x200 then
        (CELL_EINVAL, m, eflag_id)
      else if ¬ (a.type = SYS_SYNC_WAITER_SINGLE ∨ a.type = SYS_SYNC_WAITER_MULTIPLE) then
        (CELL_EINVAL, m, eflag_id)
      else
        let ef := EventFlag.create init a.protocol a.type a.name_u64
        let r := m.GetNewId ef
        (CELL_OK, r.2, some r.1)

/-- The first `n` passes of one caller through the body of the polling loop of
`sys_event_flag_wait` while no other thread touches the object and `Emu.IsStopped()` keeps
answering `stopped`: the return of the pass that leaves the loop, or `again` with the value of
`counter` if the caller is still in the loop after `n` passes (each such pass has slept 1 ms). -/
def sys_event_flag_wait_passes (ndebug : Bool) (GetThread : Nat → Option Nat) (stopped : Bool)
    (tid bitptn mode : Nat) (result : Option Nat) (max_counter : Nat) :
    Nat → EventFlag → Nat → Option WaitIter
  | 0, ef, counter => some (.again ef counter)
  | n + 1, ef, counter =>
    match sys_event_flag_wait_iter ndebug GetThread stopped tid ef bitptn mode result counter
        max_counter with
    | some (.again ef1 counter1) =>
      sys_event_flag_wait_passes ndebug GetThread stopped tid bitptn mode result max_counter n
        ef1 counter1
    | r => r

/-- A thread blocked in the polling loop of `sys_event_flag_wait`: the arguments and locals of
its call, and what `Emu.IsStopped()` answers in its next pass. -/
structure WaitCaller where
  tid : Nat
  bitptn : Nat
  mode : Nat
  result : Option Nat
  counter : Nat
  max_counter : Nat
  stopped : Bool
deriving DecidableEq, Repr

/-- The blocked callers `cs` make, one after the other, a pass through the loop body that
returns; the return code and `*result` of each are collected.  `none` if an assertion aborts
or a caller stays in the loop. -/
def run_wait_iters (ndebug : Bool) (GetThread : Nat → Option Nat) :
    List WaitCaller → EventFlag → Option (List (ErrorCode × Option Nat) × EventFlag)
  | [], ef => some ([], ef)
  | c :: cs, ef =>
    match sys_event_flag_wait_iter ndebug GetThread c.stopped c.tid ef c.bitptn c.mode c.result
        c.counter c.max_counter with
    | some (.ret code ef1 result) =>
      (run_wait_iters ndebug GetThread cs ef1).map (fun r => ((code, result) :: r.1, r.2))
    | _ => none

/-- Scenario S1: the table holding, as id `7`, a `FIFO` flag with value `flags` and one waiter,
thread `21`, on `bitptn = 0x3` with mode `AND`. -/
def S1_table (flags : Nat) (signal : List Nat) : IdManager :=
  ⟨fun i => if i = 7 then
      some ⟨flags, signal, [⟨21, 0x1, 0x3⟩], SYS_SYNC_FIFO, SYS_SYNC_WAITER_MULTIPLE, 0⟩
    else none, 8⟩

/-- Scenario S4: a flag with three waiters, threads `31`, `32` and `33`. -/
def S4_flag : EventFlag :=
  ⟨0x0, [], [⟨31, 0x1, 0x1⟩, ⟨32, 0x2, 0x6⟩, ⟨33, 0x11, 0x8⟩], SYS_SYNC_PRIORITY,
    SYS_SYNC_WAITER_MULTIPLE, 0⟩

/-- Scenario S4: the table holding `S4_flag` as id `7`. -/
def S4_table : IdManager := ⟨fun i => if i = 7 then some S4_flag else none, 8⟩

/-! ## `vm.cpp`: the reservation core -/

/-- Modelled from the spec: the host protection of a 4 KiB page of the guest view
(`RW`, `RO`, `NONE`), set by `mprotect` / `VirtualProtect`. -/
inductive Prot where
  | RW
  | RO
  | NONE
deriving DecidableEq, Repr

/-- The globals of the reservation core (`vm.cpp` lines 136-140) and the part of the host
state its functions act on.
* `g_reservation_cb`: `none` is the empty `std::function`; `some c` is the callback labelled `c`.
* `g_reservation_owner`: a `NamedThreadBase*`, `0` being `nullptr`.
* `prot`: protection of the guest-view page that starts at a given guest address.
* `mem`: the bytes of guest memory, shared by the guest view and the privileged view.
* `cb_calls`: the labels of the callbacks invoked so far, oldest first.
Protection changes are taken to succeed (a failing one throws). -/
structure VmState where
  g_reservation_cb : Option Nat
  g_reservation_owner : Nat
  g_reservation_addr : Nat
  g_reservation_size : Nat
  prot : Nat → Prot
  mem : Nat → Nat
  cb_calls : List Nat

/-- `_reservation_set` (lines 144-159). -/
def _reservation_set (s : VmState) (addr : Nat) (no_access : Bool) : VmState :=
  let p := if no_access then Prot.NONE else Prot.RO
  { s with prot := Function.update s.prot (addr &&& u32_not 0xfff) p }

/-- `_reservation_break` (lines 161-193). -/
def _reservation_break (s : VmState) (addr : Nat) : Bool × VmState :=
  if s.g_reservation_addr >>> 12 = addr >>> 12 then
    let s1 := { s with prot := Function.update s.prot (addr &&& u32_not 0xfff) Prot.RW }
    let s2 :=
      match s1.g_reservation_cb with
      | some cb => { s1 with cb_calls := s1.cb_calls ++ [cb], g_reservation_cb := none }
      | none => s1
    (true, { s2 with g_reservation_owner := 0, g_reservation_addr := 0, g_reservation_size := 0 })
  else
    (false, s)

/-- `reservation_break` (lines 195-200). -/
def reservation_break (s : VmState) (addr : Nat) : Bool × VmState :=
  _reservation_break s addr

/-- The first assertion of `reservation_acquire`, `reservation_update` and `reservation_op`. -/
def size_ok (size : Nat) : Bool :=
  size == 1 || size == 2 || size == 4 || size == 8 || size == 128

/-- The second assertion of `reservation_acquire`, `reservation_update` and `reservation_op`,
`(addr + size - 1 & ~0xfff) == (addr & ~0xfff)`, in `u32` arithmetic. -/
def range_ok (addr size : Nat) : Bool :=
  ((addr + size + 2 ^ 32 - 1) % 2 ^ 32) &&& u32_not 0xfff == addr &&& u32_not 0xfff

/-- `reservation_acquire` (lines 202-240), called by the thread `cur`
(`GetCurrentNamedThread()`); returns `broken`, the `size` bytes copied to `data`, and the new
state. -/
def reservation_acquire (ndebug : Bool) (cur : Nat) (s : VmState) (addr size : Nat)
    (callback : Option Nat) : Option (Bool × List Nat × VmState) :=
  if ¬ ndebug ∧ ¬ size_ok size then none
  else if ¬ ndebug ∧ ¬ range_ok addr size then none
  else
    let r := if s.g_reservation_owner ≠ 0 then _reservation_break s s.g_reservation_addr
      else (false, s)
    let s2 := _reservation_set r.2 addr false
    let s3 := { s2 with
      g_reservation_addr := addr
      g_reservation_size := size
      g_reservation_owner := cur
      g_reservation_cb := callback }
    some (r.1, (List.range size).map (fun i => s3.mem (addr + i)), s3)

/-- `reservation_update` (lines 242-269), called by the thread `cur`; `data i` is byte `i` of
the source buffer. -/
def reservation_update (ndebug : Bool) (cur : Nat) (s : VmState) (addr : Nat)
    (data : Nat → Nat) (size : Nat) : Option (Bool × VmState) :=
  if ¬ ndebug ∧ ¬ size_ok size then none
  else if ¬ ndebug ∧ ¬ range_ok addr size then none
  else if s.g_reservation_owner ≠ cur ∨ s.g_reservation_addr ≠ addr ∨
      s.g_reservation_size ≠ size then
    some (false, s)
  else
    let s1 := _reservation_set s addr true
    let s2 := { s1 with
      mem := fun a => if addr ≤ a ∧ a < addr + size then data (a - addr) else s1.mem a }
    let s3 := { s2 with g_reservation_cb := none }
    some (true, (_reservation_break s3 addr).2)

/-- `reservation_query` (lines 271-291); `IsGoodAddr` is `Memory.IsGoodAddr`. -/
def reservation_query (IsGoodAddr : Nat → Bool) (s : VmState) (addr : Nat)
    (is_writing : Bool) : Bool × VmState :=
  if ¬ IsGoodAddr addr then (false, s)
  else if is_writing then (true, (_reservation_break s addr).2)
  else (true, s)

/-- `reservation_free` (lines 293-301), called by the thread `cur`. -/
def reservation_free (cur : Nat) (s : VmState) : VmState :=
  if s.g_reservation_owner = cur then (_reservation_break s s.g_reservation_addr).2 else s

/-- `reservation_op` (lines 303-336), called by the thread `cur`; `proc` acts on guest memory
through the privileged view. -/
def reservation_op (ndebug : Bool) (cur : Nat) (s : VmState) (addr size : Nat)
    (proc : (Nat → Nat) → Nat → Nat) : Option VmState :=
  if ¬ ndebug ∧ ¬ size_ok size then none
  else if ¬ ndebug ∧ ¬ range_ok addr size then none
  else
    let s1 :=
      if s.g_reservation_owner ≠ cur ∨ s.g_reservation_addr ≠ addr ∨
          s.g_reservation_size ≠ size then
        if s.g_reservation_owner ≠ 0 then (_reservation_break s s.g_reservation_addr).2 else s
      else s
    let s2 := _reservation_set s1 addr true
    let s3 := { s2 with
      g_reservation_addr := addr
      g_reservation_size := size
      g_reservation_owner := cur
      g_reservation_cb := none }
    let s4 := { s3 with mem := proc s3.mem }
    some (_reservation_break s4 addr).2

/-- A call into the reservation core. -/
inductive VmOp where
  | acquire (cur addr size : Nat) (callback : Option Nat)
  | update (cur addr : Nat) (data : Nat → Nat) (size : Nat)
  | op (cur addr size : Nat) (proc : (Nat → Nat) → Nat → Nat)
  | query (addr : Nat) (is_writing : Bool)
  | brk (addr : Nat)
  | free (cur : Nat)

/-- The state after a call into the reservation core; `none` if an assertion aborts. -/
def VmOp.run (ndebug : Bool) (IsGoodAddr : Nat → Bool) (s : VmState) : VmOp → Option VmState
  | .acquire cur addr size callback =>
    (reservation_acquire ndebug cur s addr size callback).map (fun r => r.2.2)
  | .update cur addr data size =>
    (reservation_update ndebug cur s addr data size).map (fun r => r.2)
  | .op cur addr size proc => reservation_op ndebug cur s addr size proc
  | .query addr is_writing => some (reservation_query IsGoodAddr s addr is_writing).2
  | .brk addr => some (reservation_break s addr).2
  | .free cur => some (reservation_free cur s)

/-- The state after a sequence of calls into the reservation core. -/
def run_ops (ndebug : Bool) (IsGoodAddr : Nat → Bool) : List VmOp → VmState → Option VmState
  | [], s => some s
  | o :: os, s =>
    match o.run ndebug IsGoodAddr s with
    | some s1 => run_ops ndebug IsGoodAddr os s1
    | none => none

/-- The spec's `Empty` reservation: `owner = ⊥`, `addr = 0`, `size = 0`, `cb = ⊥`. -/
def VmState.Empty (s : VmState) : Prop :=
  s.g_reservation_owner = 0 ∧ s.g_reservation_addr = 0 ∧ s.g_reservation_size = 0 ∧
    s.g_reservation_cb = none

/-- The state at start-up: no reservation, every guest-view page `NONE`, memory zeroed, no
callback invoked yet. -/
def vm_init : VmState :=
  ⟨none, 0, 0, 0, fun _ => Prot.NONE, fun _ => 0, []⟩

/-- Whether a call hands the callback labelled `c` to the reservation core (only
`reservation_acquire` takes a callback). -/
def VmOp.installs (c : Nat) : VmOp → Bool
  | .acquire _ _ _ callback => callback == some c
  | _ => false

/-- The spec's reservation invariant: while `Held` (owner not null) the guest-view page of the
reserved address is `RO` or `NONE`; while `Empty` (owner null) `addr = 0`, `size = 0` and the
callback is null. -/
def VmState.Inv (s : VmState) : Prop :=
  (s.g_reservation_owner ≠ 0 →
    (s.prot (s.g_reservation_addr &&& u32_not 0xfff) = Prot.RO ∨
      s.prot (s.g_reservation_addr &&& u32_not 0xfff) = Prot.NONE)) ∧
  (s.g_reservation_owner = 0 →
    s.g_reservation_addr = 0 ∧ s.g_reservation_size = 0 ∧ s.g_reservation_cb = none)

/-- The spec's preconditions on a reservation request: a `u32` address, a size in
`{1,2,4,8,128}` and a range inside one 4 KiB page. -/
def request_ok (addr size : Nat) : Prop :=
  addr < 2 ^ 32 ∧ (size = 1 ∨ size = 2 ∨ size = 4 ∨ size = 8 ∨ size = 128) ∧
    (addr + size - 1) >>> 12 = addr >>> 12

/-- A call into the reservation core as the spec admits it: made by a thread (a non-null
`NamedThreadBase*`) and, where it names a range, with the spec's preconditions. -/
def VmOp.wf : VmOp → Prop
  | .acquire cur addr size _ => cur ≠ 0 ∧ request_ok addr size
  | .update cur addr _ size => cur ≠ 0 ∧ request_ok addr size
  | .op cur addr size _ => cur ≠ 0 ∧ request_ok addr size
  | .query _ _ => True
  | .brk _ => True
  | .free cur => cur ≠ 0

/-! ## `vm.cpp`: guest stack operations -/

/-- Modelled from the spec: the thread types told apart by `CPU.GetType()` (`PPU`, `SPU`,
`RAW_SPU`, `ARMv7`; the enumeration is declared outside the sources). -/
inductive CPUThreadType where
  | CPU_THREAD_PPU
  | CPU_THREAD_SPU
  | CPU_THREAD_RAW_SPU
  | CPU_THREAD_ARMv7
deriving DecidableEq, Repr

/-- Modelled from the spec: what `stack_push` and `stack_pop` read and write of a `CPUThread`:
its type, the 64-bit register `GPR[1]` of a PPU thread, the 32-bit register `SP` of an ARMv7
thread, and its stack base `GetStackAddr()` (a `u32`). -/
structure CPUThread where
  type : CPUThreadType
  GPR1 : Nat
  SP : Nat
  stack_addr : Nat
deriving DecidableEq, Repr

/-- Modelled from the spec: `align(size, slot)` "aligns `size` up" to a multiple of `slot` (the
macro is declared outside the sources). -/
def align (size slot : Nat) : Nat := (size + slot - 1) / slot * slot

/-- `stack_push` (lines 488-547); returns the result, the thread and `old_pos`.  `GPR[1]` is a
`u64` and `~(align_v - 1)` a `u32`, which `&=` zero-extends; `SP` is a `u32`. -/
def stack_push (ndebug : Bool) (CPU : CPUThread) (size align_v old_pos : Nat) :
    Option (Nat × CPUThread × Nat) :=
  if ¬ ndebug ∧ align_v = 0 then none
  else
    match CPU.type with
    | .CPU_THREAD_PPU =>
      let old_pos := CPU.GPR1 % 2 ^ 32
      let g1 := (CPU.GPR1 + 2 ^ 64 - align size 8 % 2 ^ 64) % 2 ^ 64
      let g2 := g1 &&& u32_not ((align_v + 2 ^ 32 - 1) % 2 ^ 32)
      if g2 < CPU.stack_addr then
        some (0, { CPU with GPR1 := old_pos }, old_pos)
      else
        some (g2 % 2 ^ 32, { CPU with GPR1 := g2 }, old_pos)
    | .CPU_THREAD_SPU => if ndebug then some (0, CPU, old_pos) else none
    | .CPU_THREAD_RAW_SPU => if ndebug then some (0, CPU, old_pos) else none
    | .CPU_THREAD_ARMv7 =>
      let old_pos := CPU.SP
      let s1 := (CPU.SP + 2 ^ 32 - align size 4 % 2 ^ 32) % 2 ^ 32
      let s2 := s1 &&& u32_not ((align_v + 2 ^ 32 - 1) % 2 ^ 32)
      if s2 < CPU.stack_addr then
        some (0, { CPU with SP := old_pos }, old_pos)
      else
        some (s2, { CPU with SP := s2 }, old_pos)

/-- The spec's new top of stack: `size` rounded up to a multiple of `slot` is subtracted from
the stack register (a 32-bit guest address, so modulo `2^32`) and the result is rounded down to
a multiple of `align_v`. -/
def spec_new_top (reg size slot align_v : Nat) : Nat :=
  (reg + 2 ^ 32 - align size slot % 2 ^ 32) % 2 ^ 32 / align_v * align_v

/-- `stack_pop` (lines 549-584); `GPR[1] == addr` compares a `u64` with a `u32`, and
`GPR[1] = old_pos` zero-extends the `u32`. -/
def stack_pop (ndebug : Bool) (CPU : CPUThread) (addr old_pos : Nat) : Option CPUThread :=
  match CPU.type with
  | .CPU_THREAD_PPU =>
    if ¬ ndebug ∧ CPU.GPR1 ≠ addr then none else some { CPU with GPR1 := old_pos }
  | .CPU_THREAD_SPU => if ndebug then some CPU else none
  | .CPU_THREAD_RAW_SPU => if ndebug then some CPU else none
  | .CPU_THREAD_ARMv7 =>
    if ¬ ndebug ∧ CPU.SP ≠ addr then none else some { CPU with SP := old_pos }

/-- The stack register of a thread: `GPR[1]` for PPU, `SP` for ARMv7. -/
def CPUThread.stack_reg (CPU : CPUThread) : Nat :=
  match CPU.type with
  | .CPU_THREAD_PPU => CPU.GPR1
  | .CPU_THREAD_ARMv7 => CPU.SP
  | _ => 0

/-- The minimal slot of the architecture: 8 for PPU, 4 for ARMv7. -/
def CPUThread.slot (CPU : CPUThread) : Nat :=
  match CPU.type with
  | .CPU_THREAD_PPU => 8
  | .CPU_THREAD_ARMv7 => 4
  | _ => 1

/-! ## `vm.cpp`: address translation -/

/-- `get_addr` (lines 371-387).  Host pointers are `u64`; `g_base_addr` is the guest base
(`initialize()` returns the address of the mapping, or `(void*)-1` when `shm_open` fails);
`none` stands for the `throw`. -/
def get_addr (g_base_addr real_pointer : Nat) : Option Nat :=
  let diff := (real_pointer + 2 ^ 64 - g_base_addr % 2 ^ 64) % 2 ^ 64
  let res := diff % 2 ^ 32
  if res = diff then some res
  else if real_pointer ≠ 0 then none
  else some 0

/-! ## The spec's words -/

/-- The spec's validity of `mode`: the low nibble is exactly `AND` or `OR` and the remaining
bits are exactly `0`, `CLEAR` or `CLEAR_ALL`. -/
def valid_mode (mode : Nat) : Prop :=
  (mode &&& 0xf = 0x1 ∨ mode &&& 0xf = 0x2) ∧
  (mode &&& 0xFFFFFFF0 = 0 ∨ mode &&& 0xFFFFFFF0 = 0x10 ∨ mode &&& 0xFFFFFFF0 = 0x20)

instance (mode : Nat) : Decidable (valid_mode mode) := by
  unfold valid_mode; infer_instance

/-- The spec's match predicate: AND mode `(flags & bitptn) == bitptn`, OR mode
`(flags & bitptn) ≠ 0`. -/
def spec_matches (mode bitptn flags : Nat) : Prop :=
  (mode &&& 0xf = 0x1 ∧ flags &&& bitptn = bitptn) ∨
  (mode &&& 0xf = 0x2 ∧ flags &&& bitptn ≠ 0)

instance (mode bitptn flags : Nat) : Decidable (spec_matches mode bitptn flags) := by
  unfold spec_matches; infer_instance

/-- The spec's clear policy: `flags & ~bitptn` under `CLEAR`, `0` under `CLEAR_ALL`,
unchanged otherwise. -/
def spec_clear (mode bitptn flags : Nat) : Nat :=
  if mode &&& 0xFFFFFFF0 = 0x10 then flags &&& u64_not bitptn
  else if mode &&& 0xFFFFFFF0 = 0x20 then 0
  else flags

/-- The conditions under which no assertion of `EventFlag::check` can abort: assertions are
compiled out, or the protocol is one of the spec's data model (`FIFO`, `PRIORITY`) and every
waiting thread exists. -/
def check_safe (ndebug : Bool) (GetThread : Nat → Option Nat) (ef : EventFlag) : Prop :=
  ndebug = true ∨
    ((ef.protocol = SYS_SYNC_FIFO ∨ ef.protocol = SYS_SYNC_PRIORITY) ∧
      ∀ w ∈ ef.waiters, GetThread w.tid ≠ none)

/-! ## Lemmas on modes -/

theorem valid_mode_cases (mode : Nat) (hm : mode < 2 ^ 32) (hv : valid_mode mode) :
    mode = 0x01 ∨ mode = 0x02 ∨ mode = 0x11 ∨ mode = 0x12 ∨ mode = 0x21 ∨ mode = 0x22 := by
  have hsplit : mode = (mode &&& 0xf) ||| (mode &&& 0xFFFFFFF0) := by
    rw [← Nat.and_or_distrib_left]
    have : (0xf ||| 0xFFFFFFF0 : Nat) = 2 ^ 32 - 1 := by decide
    rw [this, Nat.and_pow_two_sub_one_eq_mod, Nat.mod_eq_of_lt hm]
  obtain ⟨h1, h2⟩ := hv
  rcases h1 with h1 | h1 <;> rcases h2 with h2 | h2 | h2 <;>
    (rw [h1, h2] at hsplit; simp at hsplit; omega)

theorem store_CheckId (m : IdManager) (id : Nat) (ef : EventFlag) :
    (m.store id ef).CheckId id = some ef := by
  simp [IdManager.store, IdManager.CheckId]

/-- On valid modes the condition of the source is the spec's match predicate. -/
theorem flag_match_iff (mode bitptn flags : Nat) (hm : mode < 2 ^ 32) (hv : valid_mode mode) :
    flag_match mode bitptn flags = true ↔ spec_matches mode bitptn flags := by
  rcases valid_mode_cases mode hm hv with h | h | h | h | h | h <;> subst h <;>
    simp +decide [flag_match, spec_matches, SYS_EVENT_FLAG_WAIT_AND, SYS_EVENT_FLAG_WAIT_OR]

/-- On valid modes the clear step of the source is the spec's clear policy. -/
theorem flag_clear_eq (mode bitptn flags : Nat) (hm : mode < 2 ^ 32) (hv : valid_mode mode) :
    flag_clear mode bitptn flags = spec_clear mode bitptn flags := by
  rcases valid_mode_cases mode hm hv with h | h | h | h | h | h <;> subst h <;>
    simp +decide [flag_clear, spec_clear, SYS_EVENT_FLAG_WAIT_CLEAR, SYS_EVENT_FLAG_WAIT_CLEAR_ALL]

theorem mode_ok_iff (mode : Nat) : mode_ok mode = true ↔ valid_mode mode := by
  simp +decide [mode_ok, valid_mode, u32_not, SYS_EVENT_FLAG_WAIT_AND, SYS_EVENT_FLAG_WAIT_OR,
    SYS_EVENT_FLAG_WAIT_CLEAR, SYS_EVENT_FLAG_WAIT_CLEAR_ALL, or_assoc]

/-- Under the `FIFO` protocol the loop of `check` stops at the first matching waiter. -/
theorem check_loop_fifo (ndebug : Bool) (GetThread : Nat → Option Nat) (flags : Nat)
    (ws : List EventFlagWaiter) (target highest_prio : Nat)
    (hmodes : ∀ w ∈ ws, w.mode < 2 ^ 32 ∧ valid_mode w.mode) :
    check_loop ndebug GetThread SYS_SYNC_FIFO flags ws target highest_prio =
      some (match ws.find? (fun w => decide (spec_matches w.mode w.bitptn flags)) with
        | some w => w.tid
        | none => target) := by
  induction ws with
  | nil => simp [check_loop]
  | cons w ws ih =>
    have hw := hmodes w (List.mem_cons_self _ _)
    have ih1 := ih (fun x hx => hmodes x (List.mem_cons_of_mem _ hx))
    by_cases hmatch : spec_matches w.mode w.bitptn flags
    · have hfm := (flag_match_iff _ _ _ hw.1 hw.2).2 hmatch
      simp [check_loop, hfm, hmatch, List.find?]
    · have hfm : flag_match w.mode w.bitptn flags = false := by
        cases h : flag_match w.mode w.bitptn flags
        · rfl
        · exact absurd ((flag_match_iff _ _ _ hw.1 hw.2).1 h) hmatch
      simp [check_loop, hfm, hmatch, List.find?, ih1]

theorem check_loop_total (ndebug : Bool) (GetThread : Nat → Option Nat) (protocol flags : Nat)
    (ws : List EventFlagWaiter) (target highest_prio : Nat)
    (h : ndebug = true ∨
      ((protocol = SYS_SYNC_FIFO ∨ protocol = SYS_SYNC_PRIORITY) ∧
        ∀ w ∈ ws, GetThread w.tid ≠ none)) :
    ∃ t, check_loop ndebug GetThread protocol flags ws target highest_prio = some t := by
  induction ws generalizing target highest_prio with
  | nil => exact ⟨target, by simp [check_loop]⟩
  | cons w ws ih =>
    have ih1 : ∀ target highest_prio,
        ∃ t, check_loop ndebug GetThread protocol flags ws target highest_prio = some t := by
      intro target highest_prio
      apply ih
      rcases h with h | ⟨hp, ht⟩
      · exact Or.inl h
      · exact Or.inr ⟨hp, fun x hx => ht x (List.mem_cons_of_mem _ hx)⟩
    unfold check_loop
    by_cases hfm : flag_match w.mode w.bitptn flags = true
    · rw [if_pos hfm]
      by_cases hf : protocol = SYS_SYNC_FIFO
      · rw [if_pos hf]; exact ⟨_, rfl⟩
      · rw [if_neg hf]
        by_cases hpr : protocol = SYS_SYNC_PRIORITY
        · rw [if_pos hpr]
          cases hg : GetThread w.tid with
          | some prio =>
            simp only
            by_cases hlt : prio < highest_prio
            · rw [if_pos hlt]; exact ih1 _ _
            · rw [if_neg hlt]; exact ih1 _ _
          | none =>
            rcases h with h | ⟨_, ht⟩
            · simp only; rw [if_pos h]; exact ih1 _ _
            · exact absurd hg (ht w (List.mem_cons_self _ _))
        · rw [if_neg hpr]
          rcases h with h | ⟨hp, _⟩
          · rw [if_pos h]; exact ih1 _ _
          · rcases hp with hp | hp
            · exact absurd hp hf
            · exact absurd hp hpr
    · rw [if_neg hfm]; exact ih1 _ _

theorem check_total (ndebug : Bool) (GetThread : Nat → Option Nat) (ef : EventFlag)
    (h : check_safe ndebug GetThread ef) :
    ∃ t, ef.check ndebug GetThread = some t :=
  check_loop_total ndebug GetThread ef.protocol ef.flags ef.waiters _ _ h

theorem check_safe_of_waiters (ndebug : Bool) (GetThread : Nat → Option Nat)
    (ef ef1 : EventFlag) (hp : ef1.protocol = ef.protocol)
    (hw : ∀ w ∈ ef1.waiters, w ∈ ef.waiters) (h : check_safe ndebug GetThread ef) :
    check_safe ndebug GetThread ef1 := by
  rcases h with h | ⟨hpr, ht⟩
  · exact Or.inl h
  · exact Or.inr ⟨by rw [hp]; exact hpr, fun w hw1 => ht w (hw w hw1)⟩

/-- Once the waiter list is empty, every thread that finds its `tid` at the head of `signal`
leaves the loop with `CELL_ECANCELED`, consuming that entry and nothing else. -/
theorem run_wait_iters_cancelled (ndebug : Bool) (GetThread : Nat → Option Nat)
    (cs : List WaitCaller) (ef : EventFlag) (hw : ef.waiters = [])
    (hs : ef.signal = cs.map (fun c => c.tid)) :
    run_wait_iters ndebug GetThread cs ef =
      some (cs.map (fun c => (CELL_ECANCELED, c.result)), { ef with signal := [] }) := by
  induction cs generalizing ef with
  | nil =>
    simp only [List.map_nil] at hs
    simp [run_wait_iters, ← hs]
  | cons c cs ih =>
    have hs1 : ef.signal = c.tid :: cs.map (fun c => c.tid) := by simpa using hs
    have hstep : sys_event_flag_wait_iter ndebug GetThread c.stopped c.tid ef c.bitptn c.mode
        c.result c.counter c.max_counter =
        some (.ret CELL_ECANCELED { ef with signal := cs.map (fun c => c.tid) } c.result) := by
      simp [sys_event_flag_wait_iter, hs1, hw]
    have ih1 := ih { ef with signal := cs.map (fun c => c.tid) } hw rfl
    simp [run_wait_iters, hstep, ih1]

/-- Under the `PRIORITY` protocol, when every waiting thread exists (`prio` gives its
priority), the loop of `check` either selects a matching waiter whose priority is below
`highest_prio`, strictly below that of every earlier matching waiter and at most that of every
later one, or finds no matching waiter below `highest_prio` and keeps `target`. -/
theorem check_loop_priority (ndebug : Bool) (GetThread : Nat → Option Nat) (prio : Nat → Nat)
    (flags : Nat) (ws : List EventFlagWaiter) (target highest_prio : Nat)
    (hthr : ∀ w ∈ ws, GetThread w.tid = some (prio w.tid)) :
    (∃ pre w post, ws = pre ++ w :: post ∧ flag_match w.mode w.bitptn flags = true ∧
        prio w.tid < highest_prio ∧
        (∀ x ∈ pre, flag_match x.mode x.bitptn flags = true → prio w.tid < prio x.tid) ∧
        (∀ x ∈ post, flag_match x.mode x.bitptn flags = true → prio w.tid ≤ prio x.tid) ∧
        check_loop ndebug GetThread SYS_SYNC_PRIORITY flags ws target highest_prio =
          some w.tid) ∨
    ((∀ x ∈ ws, flag_match x.mode x.bitptn flags = true → highest_prio ≤ prio x.tid) ∧
      check_loop ndebug GetThread SYS_SYNC_PRIORITY flags ws target highest_prio =
        some target) := by
  induction ws generalizing target highest_prio with
  | nil => exact Or.inr ⟨fun x hx => by simp at hx, by simp [check_loop]⟩
  | cons w ws ih =>
    have hthr1 : ∀ x ∈ ws, GetThread x.tid = some (prio x.tid) :=
      fun x hx => hthr x (List.mem_cons_of_mem _ hx)
    have hw : GetThread w.tid = some (prio w.tid) := hthr w (List.mem_cons_self _ _)
    have hnf : ¬ (SYS_SYNC_PRIORITY = SYS_SYNC_FIFO) := by decide
    by_cases hfm : flag_match w.mode w.bitptn flags = true
    · by_cases hlt : prio w.tid < highest_prio
      · have hstep : check_loop ndebug GetThread SYS_SYNC_PRIORITY flags (w :: ws) target
            highest_prio =
            check_loop ndebug GetThread SYS_SYNC_PRIORITY flags ws w.tid (prio w.tid) := by
          rw [check_loop, if_pos hfm, if_neg hnf, if_pos rfl, hw]
          simp only
          rw [if_pos hlt]
        rcases ih w.tid (prio w.tid) hthr1 with ⟨pre, v, post, hsplit, hv, hvlt, hpre, hpost, hres⟩ | ⟨hall, hres⟩
        · refine Or.inl ⟨w :: pre, v, post, by rw [hsplit]; rfl, hv, lt_trans hvlt hlt, ?_,
            hpost, by rw [hstep, hres]⟩
          intro x hx hxm
          rcases List.mem_cons.1 hx with h | h
          · rw [h]; exact hvlt
          · exact hpre x h hxm
        · exact Or.inl ⟨[], w, ws, rfl, hfm, hlt, fun x hx => by simp at hx, hall,
            by rw [hstep, hres]⟩
      · have hstep : check_loop ndebug GetThread SYS_SYNC_PRIORITY flags (w :: ws) target
            highest_prio =
            check_loop ndebug GetThread SYS_SYNC_PRIORITY flags ws target highest_prio := by
          rw [check_loop, if_pos hfm, if_neg hnf, if_pos rfl, hw]
          simp only
          rw [if_neg hlt]
        rcases ih target highest_prio hthr1 with ⟨pre, v, post, hsplit, hv, hvlt, hpre, hpost, hres⟩ | ⟨hall, hres⟩
        · refine Or.inl ⟨w :: pre, v, post, by rw [hsplit]; rfl, hv, hvlt, ?_, hpost,
            by rw [hstep, hres]⟩
          intro x hx hxm
          rcases List.mem_cons.1 hx with h | h
          · rw [h]; omega
          · exact hpre x h hxm
        · refine Or.inr ⟨?_, by rw [hstep, hres]⟩
          intro x hx hxm
          rcases List.mem_cons.1 hx with h | h
          · rw [h]; omega
          · exact hall x h hxm
    · have hstep : check_loop ndebug GetThread SYS_SYNC_PRIORITY flags (w :: ws) target
          highest_prio =
          check_loop ndebug GetThread SYS_SYNC_PRIORITY flags ws target highest_prio := by
        rw [check_loop, if_neg hfm]
      rcases ih target highest_prio hthr1 with ⟨pre, v, post, hsplit, hv, hvlt, hpre, hpost, hres⟩ | ⟨hall, hres⟩
      · refine Or.inl ⟨w :: pre, v, post, by rw [hsplit]; rfl, hv, hvlt, ?_, hpost,
          by rw [hstep, hres]⟩
        intro x hx hxm
        rcases List.mem_cons.1 hx with h | h
        · rw [h] at hxm; exact absurd hxm hfm
        · exact hpre x h hxm
      · refine Or.inr ⟨?_, by rw [hstep, hres]⟩
        intro x hx hxm
        rcases List.mem_cons.1 hx with h | h
        · rw [h] at hxm; exact absurd hxm hfm
        · exact hall x h hxm

/-- What `EventFlag::check` does under the `PRIORITY` protocol when every waiting thread exists
and has a priority below `2^64 - 1`: it returns `0` if no waiter matches, and otherwise the
`tid` of the matching waiter of smallest priority, the earliest one among equals. -/
theorem EventFlag_check_priority (ndebug : Bool) (GetThread : Nat → Option Nat)
    (prio : Nat → Nat) (ef : EventFlag) (hp : ef.protocol = SYS_SYNC_PRIORITY)
    (hmodes : ∀ w ∈ ef.waiters, w.mode < 2 ^ 32 ∧ valid_mode w.mode)
    (hthr : ∀ w ∈ ef.waiters, GetThread w.tid = some (prio w.tid) ∧ prio w.tid < 2 ^ 64 - 1) :
    ((∀ w ∈ ef.waiters, ¬ spec_matches w.mode w.bitptn ef.flags) ∧
      ef.check ndebug GetThread = some 0) ∨
    (∃ pre w post, ef.waiters = pre ++ w :: post ∧ spec_matches w.mode w.bitptn ef.flags ∧
      (∀ x ∈ pre, spec_matches x.mode x.bitptn ef.flags → prio w.tid < prio x.tid) ∧
      (∀ x ∈ post, spec_matches x.mode x.bitptn ef.flags → prio w.tid ≤ prio x.tid) ∧
      ef.check ndebug GetThread = some w.tid) := by
  have hiff : ∀ x ∈ ef.waiters,
      (flag_match x.mode x.bitptn ef.flags = true ↔ spec_matches x.mode x.bitptn ef.flags) :=
    fun x hx => flag_match_iff _ _ _ (hmodes x hx).1 (hmodes x hx).2
  unfold EventFlag.check
  rw [hp]
  rcases check_loop_priority ndebug GetThread prio ef.flags ef.waiters 0 0xFFFFFFFFFFFFFFFF
      (fun w hw => (hthr w hw).1) with
    ⟨pre, v, post, hsplit, hv, _, hpre, hpost, hres⟩ | ⟨hall, hres⟩
  · have hmem : ∀ x, x ∈ pre ∨ x = v ∨ x ∈ post → x ∈ ef.waiters := by
      intro x hx
      rw [hsplit]
      simpa using hx
    refine Or.inr ⟨pre, v, post, hsplit, (hiff v (hmem v (Or.inr (Or.inl rfl)))).1 hv, ?_, ?_,
      hres⟩
    · intro x hx hxm
      exact hpre x hx ((hiff x (hmem x (Or.inl hx))).2 hxm)
    · intro x hx hxm
      exact hpost x hx ((hiff x (hmem x (Or.inr (Or.inr hx)))).2 hxm)
  · refine Or.inl ⟨?_, hres⟩
    intro w hw hwm
    have h1 := hall w hw ((hiff w hw).2 hwm)
    have h2 := (hthr w hw).2
    omega

/-- When no waiter matches, the loop of `check` keeps `target`, whatever the protocol. -/
theorem check_loop_no_match (ndebug : Bool) (GetThread : Nat → Option Nat)
    (protocol flags : Nat) (ws : List EventFlagWaiter) (target highest_prio : Nat)
    (h : ∀ w ∈ ws, flag_match w.mode w.bitptn flags = false) :
    check_loop ndebug GetThread protocol flags ws target highest_prio = some target := by
  induction ws with
  | nil => simp [check_loop]
  | cons w ws ih =>
    have hw := h w (List.mem_cons_self _ _)
    rw [check_loop, hw]
    simpa using ih (fun x hx => h x (List.mem_cons_of_mem _ hx))

/-- For a protocol other than `FIFO` and `PRIORITY` the loop of `check` selects nobody: at the
first matching waiter the assertion "unknown protocol" aborts, and with assertions compiled out
`target` is never assigned. -/
theorem check_loop_unknown (ndebug : Bool) (GetThread : Nat → Option Nat)
    (protocol flags : Nat) (ws : List EventFlagWaiter) (target highest_prio : Nat)
    (h1 : protocol ≠ SYS_SYNC_FIFO) (h2 : protocol ≠ SYS_SYNC_PRIORITY) :
    check_loop ndebug GetThread protocol flags ws target highest_prio =
      if ws.any (fun w => flag_match w.mode w.bitptn flags) then
        (if ndebug then some target else none)
      else some target := by
  induction ws with
  | nil => simp [check_loop]
  | cons w ws ih =>
    by_cases hfm : flag_match w.mode w.bitptn flags = true
    · rw [check_loop, if_pos hfm, if_neg h1, if_neg h2, ih]
      cases ndebug <;> simp [hfm]
    · rw [check_loop, if_neg hfm, ih]
      simp [hfm]

/-- What `EventFlag::check` does on an object whose protocol is `RETRY` or `PRIORITY_INHERIT`:
when no waiter matches the flags it returns `0`, as on the otherwise identical `PRIORITY`
object; when some waiter matches it selects nobody, aborting on the assertion
"unknown protocol", or returning `0` when assertions are compiled out. -/
theorem EventFlag_check_unimplemented_protocol (ndebug : Bool)
    (GetThread : Nat → Option Nat) (ef : EventFlag)
    (hp : ef.protocol = SYS_SYNC_RETRY ∨ ef.protocol = SYS_SYNC_PRIORITY_INHERIT)
    (hmodes : ∀ w ∈ ef.waiters, w.mode < 2 ^ 32 ∧ valid_mode w.mode) :
    ((∀ w ∈ ef.waiters, ¬ spec_matches w.mode w.bitptn ef.flags) →
      ef.check ndebug GetThread = some 0 ∧
      EventFlag.check ndebug GetThread { ef with protocol := SYS_SYNC_PRIORITY } = some 0) ∧
    ((∃ w ∈ ef.waiters, spec_matches w.mode w.bitptn ef.flags) →
      ef.check ndebug GetThread = if ndebug then some 0 else none) := by
  have hiff : ∀ x ∈ ef.waiters,
      (flag_match x.mode x.bitptn ef.flags = true ↔ spec_matches x.mode x.bitptn ef.flags) :=
    fun x hx => flag_match_iff _ _ _ (hmodes x hx).1 (hmodes x hx).2
  have h1 : ef.protocol ≠ SYS_SYNC_FIFO := by
    rcases hp with h | h <;> rw [h] <;> decide
  have h2 : ef.protocol ≠ SYS_SYNC_PRIORITY := by
    rcases hp with h | h <;> rw [h] <;> decide
  constructor
  · intro hno
    have hfalse : ∀ w ∈ ef.waiters, flag_match w.mode w.bitptn ef.flags = false := by
      intro w hw
      cases h : flag_match w.mode w.bitptn ef.flags
      · rfl
      · exact absurd ((hiff w hw).1 h) (hno w hw)
    exact ⟨check_loop_no_match ndebug GetThread _ _ _ _ _ hfalse,
      check_loop_no_match ndebug GetThread _ _ _ _ _ hfalse⟩
  · rintro ⟨w, hw, hwm⟩
    have hany : ef.waiters.any (fun w => flag_match w.mode w.bitptn ef.flags) = true :=
      List.any_eq_true.2 ⟨w, hw, (hiff w hw).2 hwm⟩
    unfold EventFlag.check
    rw [check_loop_unknown ndebug GetThread _ _ _ _ _ h1 h2, if_pos hany]

/-- While the caller is not signalled and the emulator runs, the first passes through the loop
body only count: after `n` passes from `counter = c`, with `c + n ≤ max_counter + 1`, the
caller is still in the loop. -/
theorem sys_event_flag_wait_passes_again (ndebug : Bool) (GetThread : Nat → Option Nat)
    (tid bitptn mode : Nat) (result : Option Nat) (max_counter : Nat) (ef : EventFlag)
    (hsig : ef.signal.head? ≠ some tid) (hmax : max_counter + 1 < 2 ^ 64) (n c : Nat)
    (hn : c + n ≤ max_counter + 1) :
    sys_event_flag_wait_passes ndebug GetThread false tid bitptn mode result max_counter n ef c
      = some (.again ef (c + n)) := by
  induction n generalizing c with
  | zero => rfl
  | succ n ih =>
    have hc : ¬ (c > max_counter) := by omega
    have hlt : c + 1 < 18446744073709551616 := by omega
    have hstep : sys_event_flag_wait_iter ndebug GetThread false tid ef bitptn mode result c
        max_counter = some (.again ef (c + 1)) := by
      simp [sys_event_flag_wait_iter, hsig, hc, hlt]
    rw [sys_event_flag_wait_passes, hstep]
    simp only
    rw [ih (c + 1) (by omega)]
    congr 2
    omega

/-- While the caller is not signalled and the emulator runs, the pass that returns
`CELL_ETIMEDOUT` is the one entered with `counter = max_counter + 1`: from `counter = c` it is
pass number `max_counter + 2 - c`. -/
theorem sys_event_flag_wait_passes_timeout (ndebug : Bool) (GetThread : Nat → Option Nat)
    (tid bitptn mode : Nat) (result : Option Nat) (max_counter : Nat) (ef : EventFlag)
    (hsig : ef.signal.head? ≠ some tid) (hmax : max_counter + 1 < 2 ^ 64) (n c : Nat)
    (hn : c + n = max_counter + 1) :
    sys_event_flag_wait_passes ndebug GetThread false tid bitptn mode result max_counter
        (n + 1) ef c =
      some (.ret CELL_ETIMEDOUT
        { ef with waiters := ef.waiters.eraseP (fun w => w.tid == tid) } result) := by
  induction n generalizing c with
  | zero =>
    have hc : c > max_counter := by omega
    have hstep : sys_event_flag_wait_iter ndebug GetThread false tid ef bitptn mode result c
        max_counter = some (.ret CELL_ETIMEDOUT
          { ef with waiters := ef.waiters.eraseP (fun w => w.tid == tid) } result) := by
      simp [sys_event_flag_wait_iter, hsig, hc]
    rw [sys_event_flag_wait_passes, hstep]
  | succ n ih =>
    have hc : ¬ (c > max_counter) := by omega
    have hlt : c + 1 < 18446744073709551616 := by omega
    have hstep : sys_event_flag_wait_iter ndebug GetThread false tid ef bitptn mode result c
        max_counter = some (.again ef (c + 1)) := by
      simp [sys_event_flag_wait_iter, hsig, hc, hlt]
    rw [sys_event_flag_wait_passes, hstep]
    simp only
    exact ih (c + 1) (by omega)

/-- The polling loop of `sys_event_flag_wait` for a caller that is never signalled while the
emulator keeps running, entered with `counter = 0`: after `max_counter + 1` passes (and as many
sleeps of 1 ms) the caller is still in the loop, and pass `max_counter + 2` returns
`CELL_ETIMEDOUT`, having removed the first record with the caller's `tid` and nothing else. -/
theorem sys_event_flag_wait_timeout (ndebug : Bool) (GetThread : Nat → Option Nat)
    (tid bitptn mode : Nat) (result : Option Nat) (max_counter : Nat) (ef : EventFlag)
    (hsig : ef.signal.head? ≠ some tid) (hmax : max_counter + 1 < 2 ^ 64) :
    sys_event_flag_wait_passes ndebug GetThread false tid bitptn mode result max_counter
        (max_counter + 1) ef 0 = some (.again ef (max_counter + 1)) ∧
    sys_event_flag_wait_passes ndebug GetThread false tid bitptn mode result max_counter
        (max_counter + 2) ef 0 =
      some (.ret CELL_ETIMEDOUT
        { ef with waiters := ef.waiters.eraseP (fun w => w.tid == tid) } result) := by
  constructor
  · have h := sys_event_flag_wait_passes_again ndebug GetThread tid bitptn mode result
      max_counter ef hsig hmax (max_counter + 1) 0 (by omega)
    simpa using h
  · exact sys_event_flag_wait_passes_timeout ndebug GetThread tid bitptn mode result
      max_counter ef hsig hmax (max_counter + 1) 0 (by omega)

/-! ## Lemmas on pages -/

/-- The page base `addr & ~0xfff` of a `u32` address is `(addr >> 12) << 12`. -/
theorem page_base (x : Nat) (hx : x < 2 ^ 32) : x &&& u32_not 0xfff = (x >>> 12) <<< 12 := by
  have hc : u32_not 0xfff = (2 ^ 20 - 1) <<< 12 := by decide
  rw [hc]
  apply Nat.eq_of_testBit_eq
  intro i
  simp only [Nat.testBit_and, Nat.testBit_shiftLeft, Nat.testBit_shiftRight,
    Nat.testBit_two_pow_sub_one]
  by_cases h12 : 12 ≤ i
  · by_cases h32 : i < 32
    · have : i - 12 < 20 := by omega
      simp [h12, this, Nat.add_sub_cancel' h12]
    · have hlt : x < 2 ^ i := lt_of_lt_of_le hx (Nat.pow_le_pow_right (by decide) (by omega))
      have : Nat.testBit x i = false := Nat.testBit_lt_two_pow hlt
      simp [h12, this, Nat.add_sub_cancel' h12]
  · simp [h12]

theorem page_base_congr (a b : Nat) (ha : a < 2 ^ 32) (hb : b < 2 ^ 32)
    (h : a >>> 12 = b >>> 12) : a &&& u32_not 0xfff = b &&& u32_not 0xfff := by
  rw [page_base a ha, page_base b hb, h]

theorem size_ok_of_mem (size : Nat)
    (h : size = 1 ∨ size = 2 ∨ size = 4 ∨ size = 8 ∨ size = 128) : size_ok size = true := by
  rcases h with h | h | h | h | h <;> subst h <;> rfl

/-- A range that stays inside one 4 KiB page passes the range assertion. -/
theorem range_ok_of_page (addr size : Nat) (haddr : addr < 2 ^ 32) (hpos : 0 < size)
    (h : (addr + size - 1) >>> 12 = addr >>> 12) : range_ok addr size = true := by
  have hlt : addr + size - 1 < 2 ^ 32 := by
    simp only [Nat.shiftRight_eq_div_pow] at h
    omega
  have hmod : (addr + size + 2 ^ 32 - 1) % 2 ^ 32 = addr + size - 1 := by omega
  simp only [range_ok, hmod, beq_iff_eq]
  exact page_base_congr _ _ hlt haddr h

/-! ## Lemmas on alignment masks -/

theorem u32_mask_pow (k : Nat) (hk : k < 32) :
    u32_not ((2 ^ k + 2 ^ 32 - 1) % 2 ^ 32) = (2 ^ (32 - k) - 1) <<< k := by
  interval_cases k <;> decide

theorem u32_mask_lt (k : Nat) (hk : k < 32) :
    u32_not ((2 ^ k + 2 ^ 32 - 1) % 2 ^ 32) < 2 ^ 32 := by
  interval_cases k <;> decide

/-- On a `u32` value, `& ~(2^k - 1)` rounds down to a multiple of `2^k`. -/
theorem and_mask_round (x k : Nat) (hx : x < 2 ^ 32) (hk : k < 32) :
    x &&& u32_not ((2 ^ k + 2 ^ 32 - 1) % 2 ^ 32) = x / 2 ^ k * 2 ^ k := by
  rw [u32_mask_pow k hk, ← Nat.shiftRight_eq_div_pow, ← Nat.shiftLeft_eq]
  apply Nat.eq_of_testBit_eq
  intro i
  simp only [Nat.testBit_and, Nat.testBit_shiftLeft, Nat.testBit_shiftRight,
    Nat.testBit_two_pow_sub_one]
  by_cases hki : k ≤ i
  · by_cases h32 : i < 32
    · have : i - k < 32 - k := by omega
      simp [hki, this, Nat.add_sub_cancel' hki]
    · have hlt : x < 2 ^ i := lt_of_lt_of_le hx (Nat.pow_le_pow_right (by decide) (by omega))
      have : Nat.testBit x i = false := Nat.testBit_lt_two_pow hlt
      simp [hki, this, Nat.add_sub_cancel' hki]
  · simp [hki]

/-- A zero-extended `u32` mask only looks at the low 32 bits of a `u64`. -/
theorem and_mask_low (y M : Nat) (hM : M < 2 ^ 32) : y &&& M = (y % 2 ^ 32) &&& M := by
  rw [← Nat.and_pow_two_sub_one_eq_mod, Nat.and_assoc]
  congr 1
  rw [Nat.and_comm, Nat.and_pow_two_sub_one_eq_mod, Nat.mod_eq_of_lt hM]

/-- The value `stack_push` computes for a PPU thread whose `GPR[1]` is below `2^32`. -/
theorem stack_push_ppu_top (G size k : Nat) (hG : G < 2 ^ 32) (hk : k < 32) :
    (G + 2 ^ 64 - align size 8 % 2 ^ 64) % 2 ^ 64 &&&
        u32_not ((2 ^ k + 2 ^ 32 - 1) % 2 ^ 32) = spec_new_top G size 8 (2 ^ k) := by
  rw [and_mask_low _ _ (u32_mask_lt k hk)]
  have h : (G + 2 ^ 64 - align size 8 % 2 ^ 64) % 2 ^ 64 % 2 ^ 32 =
      (G + 2 ^ 32 - align size 8 % 2 ^ 32) % 2 ^ 32 := by
    generalize align size 8 = a
    omega
  rw [h, and_mask_round _ k (Nat.mod_lt _ (by decide)) hk]
  rfl

/-- The value `stack_push` computes for an ARMv7 thread. -/
theorem stack_push_arm_top (S size k : Nat) (hk : k < 32) :
    (S + 2 ^ 32 - align size 4 % 2 ^ 32) % 2 ^ 32 &&&
        u32_not ((2 ^ k + 2 ^ 32 - 1) % 2 ^ 32) = spec_new_top S size 4 (2 ^ k) := by
  rw [and_mask_round _ k (Nat.mod_lt _ (by decide)) hk]
  rfl

theorem spec_new_top_lt (reg size slot k : Nat) :
    spec_new_top reg size slot (2 ^ k) < 2 ^ 32 := by
  unfold spec_new_top
  have h1 : (reg + 2 ^ 32 - align size slot % 2 ^ 32) % 2 ^ 32 < 2 ^ 32 :=
    Nat.mod_lt _ (by decide)
  exact lt_of_le_of_lt (Nat.div_mul_le_self _ _) h1

/-- The result of `stack_push` for a PPU thread whose `GPR[1]` is below `2^32`. -/
theorem stack_push_ppu_eq (ndebug : Bool) (G S base size k old_pos : Nat) (hG : G < 2 ^ 32)
    (hk : k < 32) :
    stack_push ndebug ⟨.CPU_THREAD_PPU, G, S, base⟩ size (2 ^ k) old_pos =
      if spec_new_top G size 8 (2 ^ k) < base then
        some (0, ⟨.CPU_THREAD_PPU, G, S, base⟩, G)
      else
        some (spec_new_top G size 8 (2 ^ k),
          ⟨.CPU_THREAD_PPU, spec_new_top G size 8 (2 ^ k), S, base⟩, G) := by
  have hne : ¬ ((2 : Nat) ^ k = 0) := by positivity
  simp only [stack_push, hne, and_false, if_false, Nat.mod_eq_of_lt hG,
    stack_push_ppu_top G size k hG hk, Nat.mod_eq_of_lt (spec_new_top_lt G size 8 k)]

/-- The result of `stack_push` for an ARMv7 thread. -/
theorem stack_push_arm_eq (ndebug : Bool) (G S base size k old_pos : Nat) (hk : k < 32) :
    stack_push ndebug ⟨.CPU_THREAD_ARMv7, G, S, base⟩ size (2 ^ k) old_pos =
      if spec_new_top S size 4 (2 ^ k) < base then
        some (0, ⟨.CPU_THREAD_ARMv7, G, S, base⟩, S)
      else
        some (spec_new_top S size 4 (2 ^ k),
          ⟨.CPU_THREAD_ARMv7, G, spec_new_top S size 4 (2 ^ k), base⟩, S) := by
  have hne : ¬ ((2 : Nat) ^ k = 0) := by positivity
  simp only [stack_push, hne, and_false, if_false, stack_push_arm_top S size k hk]

/-- When the rounded size does not exceed a 32-bit register value the subtraction does not
wrap. -/
theorem spec_new_top_nowrap (reg size slot k : Nat) (hreg : reg < 2 ^ 32)
    (hnowrap : align size slot ≤ reg) :
    spec_new_top reg size slot (2 ^ k) = (reg - align size slot) / 2 ^ k * 2 ^ k := by
  have hsub : (reg + 2 ^ 32 - align size slot % 2 ^ 32) % 2 ^ 32 = reg - align size slot := by
    generalize align size slot = a at hnowrap
    omega
  unfold spec_new_top
  rw [hsub]

/-- When the rounded size does not exceed the register, the new top is a multiple of the
alignment that leaves room for `size` bytes below the old top. -/
theorem spec_new_top_bounds (reg size slot k : Nat) (hslot : slot = 8 ∨ slot = 4)
    (hreg : reg < 2 ^ 32) (hnowrap : align size slot ≤ reg) :
    2 ^ k ∣ spec_new_top reg size slot (2 ^ k) ∧
      spec_new_top reg size slot (2 ^ k) + size ≤ reg := by
  have hsz : size ≤ align size slot := by
    rcases hslot with h | h <;> subst h <;> simp only [align] <;> omega
  have hsub : (reg + 2 ^ 32 - align size slot % 2 ^ 32) % 2 ^ 32 = reg - align size slot := by
    generalize align size slot = a at hnowrap
    omega
  have hle : spec_new_top reg size slot (2 ^ k) ≤ reg - align size slot := by
    unfold spec_new_top
    rw [hsub]
    exact Nat.div_mul_le_self _ _
  exact ⟨Dvd.intro_left _ rfl, by omega⟩

/-! ## Closed forms of the reservation calls -/

/-- The result of `reservation_acquire` when its assertions hold. -/
theorem reservation_acquire_eq (ndebug : Bool) (cur : Nat) (s : VmState) (addr size : Nat)
    (cb : Option Nat) (hso : size_ok size = true) (hro : range_ok addr size = true) :
    reservation_acquire ndebug cur s addr size cb =
      some ((if s.g_reservation_owner ≠ 0 then _reservation_break s s.g_reservation_addr
          else (false, s)).1,
        (List.range size).map (fun i => s.mem (addr + i)),
        { _reservation_set (if s.g_reservation_owner ≠ 0 then
            _reservation_break s s.g_reservation_addr else (false, s)).2 addr false with
          g_reservation_addr := addr
          g_reservation_size := size
          g_reservation_owner := cur
          g_reservation_cb := cb }) := by
  simp only [reservation_acquire, hso, hro]
  by_cases ho : s.g_reservation_owner = 0
  · simp [ho, _reservation_set]
  · cases hcb : s.g_reservation_cb <;> simp [ho, hcb, _reservation_set, _reservation_break]

/-- The result of `reservation_update` when its assertions hold and the caller owns a
reservation of exactly `(addr, size)`. -/
theorem reservation_update_eq (ndebug : Bool) (cur : Nat) (s : VmState) (addr : Nat)
    (data : Nat → Nat) (size : Nat) (hso : size_ok size = true)
    (hro : range_ok addr size = true) (ho : s.g_reservation_owner = cur)
    (ha : s.g_reservation_addr = addr) (hs : s.g_reservation_size = size) :
    reservation_update ndebug cur s addr data size =
      some (true,
        { s with
          g_reservation_cb := none
          g_reservation_owner := 0
          g_reservation_addr := 0
          g_reservation_size := 0
          prot := Function.update (Function.update s.prot (addr &&& u32_not 0xfff) Prot.NONE)
            (addr &&& u32_not 0xfff) Prot.RW
          mem := fun a => if addr ≤ a ∧ a < addr + size then data (a - addr) else s.mem a }) := by
  simp [reservation_update, hso, hro, ho, ha, hs, _reservation_set, _reservation_break]

/-- The effect of `_reservation_break` when the pages agree. -/
theorem _reservation_break_hit (s : VmState) (addr : Nat)
    (h : s.g_reservation_addr >>> 12 = addr >>> 12) :
    _reservation_break s addr =
      (true,
        { s with
          g_reservation_cb := none
          g_reservation_owner := 0
          g_reservation_addr := 0
          g_reservation_size := 0
          prot := Function.update s.prot (addr &&& u32_not 0xfff) Prot.RW
          cb_calls := s.cb_calls ++ s.g_reservation_cb.toList }) := by
  cases hcb : s.g_reservation_cb <;> simp [_reservation_break, h, hcb]

/-- `_reservation_break` does nothing when the pages differ. -/
theorem _reservation_break_miss (s : VmState) (addr : Nat)
    (h : s.g_reservation_addr >>> 12 ≠ addr >>> 12) :
    _reservation_break s addr = (false, s) := by
  simp [_reservation_break, h]

/-! ## A callback that is not stored is not invoked -/

theorem _reservation_break_keeps (c : Nat) (s : VmState) (addr : Nat)
    (h : s.g_reservation_cb ≠ some c) :
    (_reservation_break s addr).2.g_reservation_cb ≠ some c ∧
      (_reservation_break s addr).2.cb_calls.count c = s.cb_calls.count c := by
  by_cases hp : s.g_reservation_addr >>> 12 = addr >>> 12
  · rw [_reservation_break_hit s addr hp]
    cases hcb : s.g_reservation_cb with
    | none => simp
    | some d =>
      have hd : d ≠ c := fun e => h (by rw [hcb, e])
      simp [List.count_append, List.count_cons, hd]
  · rw [_reservation_break_miss s addr hp]
    exact ⟨h, rfl⟩

/-- A call that does not install the callback `c`, made in a state where `c` is not the stored
callback, does not invoke `c` and does not leave it stored. -/
theorem VmOp_run_keeps (ndebug : Bool) (IsGoodAddr : Nat → Bool) (c : Nat) (o : VmOp)
    (s s1 : VmState) (ho : o.installs c = false) (h : s.g_reservation_cb ≠ some c)
    (hrun : o.run ndebug IsGoodAddr s = some s1) :
    s1.g_reservation_cb ≠ some c ∧ s1.cb_calls.count c = s.cb_calls.count c := by
  cases o with
  | acquire cur addr size callback =>
    have hcb : callback ≠ some c := by simpa [VmOp.installs] using ho
    simp only [VmOp.run, reservation_acquire] at hrun
    split_ifs at hrun with h1 h2 h3
    · simp at hrun
    · simp at hrun
    · simp only [Option.map_some', Option.some.injEq] at hrun
      subst hrun
      exact ⟨hcb, (_reservation_break_keeps c s _ h).2⟩
    · simp only [Option.map_some', Option.some.injEq] at hrun
      subst hrun
      exact ⟨hcb, rfl⟩
  | update cur addr data size =>
    simp only [VmOp.run, reservation_update] at hrun
    split_ifs at hrun with h1 h2 h3
    · simp at hrun
    · simp at hrun
    · simp only [Option.map_some', Option.some.injEq] at hrun
      subst hrun
      exact ⟨h, rfl⟩
    · simp only [Option.map_some', Option.some.injEq] at hrun
      subst hrun
      exact _reservation_break_keeps c _ _ (by simp [_reservation_set])
  | op cur addr size proc =>
    simp only [VmOp.run, reservation_op] at hrun
    split_ifs at hrun with h1 h2 h3 h4
    · simp only [Option.some.injEq] at hrun
      subst hrun
      have hk := _reservation_break_keeps c s s.g_reservation_addr h
      have hk2 := _reservation_break_keeps c
        { _reservation_set (_reservation_break s s.g_reservation_addr).2 addr true with
          g_reservation_addr := addr
          g_reservation_size := size
          g_reservation_owner := cur
          g_reservation_cb := none
          mem := proc (_reservation_break s s.g_reservation_addr).2.mem } addr (by simp)
      exact ⟨hk2.1, hk2.2.trans hk.2⟩
    · simp only [Option.some.injEq] at hrun
      subst hrun
      exact _reservation_break_keeps c _ _ (by simp)
    · simp only [Option.some.injEq] at hrun
      subst hrun
      exact _reservation_break_keeps c _ _ (by simp)
  | query addr is_writing =>
    simp only [VmOp.run, reservation_query, Option.some.injEq] at hrun
    subst hrun
    split_ifs <;> first | exact ⟨h, rfl⟩ | exact _reservation_break_keeps c s addr h
  | brk addr =>
    simp only [VmOp.run, reservation_break, Option.some.injEq] at hrun
    subst hrun
    exact _reservation_break_keeps c s addr h
  | free cur =>
    simp only [VmOp.run, reservation_free, Option.some.injEq] at hrun
    subst hrun
    split_ifs
    · exact _reservation_break_keeps c s _ h
    · exact ⟨h, rfl⟩

theorem run_ops_keeps (ndebug : Bool) (IsGoodAddr : Nat → Bool) (c : Nat) (ops : List VmOp)
    (s s1 : VmState) (hops : ∀ o ∈ ops, o.installs c = false)
    (h : s.g_reservation_cb ≠ some c) (hrun : run_ops ndebug IsGoodAddr ops s = some s1) :
    s1.g_reservation_cb ≠ some c ∧ s1.cb_calls.count c = s.cb_calls.count c := by
  induction ops generalizing s with
  | nil =>
    simp only [run_ops, Option.some.injEq] at hrun
    subst hrun
    exact ⟨h, rfl⟩
  | cons o os ih =>
    simp only [run_ops] at hrun
    cases hstep : o.run ndebug IsGoodAddr s with
    | none => simp [hstep] at hrun
    | some s2 =>
      simp only [hstep] at hrun
      have hk := VmOp_run_keeps ndebug IsGoodAddr c o s s2
        (hops o (List.mem_cons_self _ _)) h hstep
      have hk2 := ih s2 (fun x hx => hops x (List.mem_cons_of_mem _ hx)) hk.1 hrun
      exact ⟨hk2.1, hk2.2.trans hk.2⟩

/-! ## The reservation invariant is kept by every call -/

theorem request_ok_asserts (addr size : Nat) (h : request_ok addr size) :
    size_ok size = true ∧ range_ok addr size = true := by
  obtain ⟨haddr, hsize, hrange⟩ := h
  exact ⟨size_ok_of_mem size hsize, range_ok_of_page addr size haddr (by omega) hrange⟩

theorem _reservation_break_inv (s : VmState) (addr : Nat) (h : s.Inv) :
    (_reservation_break s addr).2.Inv := by
  by_cases hp : s.g_reservation_addr >>> 12 = addr >>> 12
  · rw [_reservation_break_hit s addr hp]
    exact ⟨fun h0 => absurd rfl h0, fun _ => ⟨rfl, rfl, rfl⟩⟩
  · rw [_reservation_break_miss s addr hp]
    exact h

theorem _reservation_break_inv_of_addr (s : VmState) (addr : Nat)
    (h : s.g_reservation_addr = addr) : (_reservation_break s addr).2.Inv := by
  rw [_reservation_break_hit s addr (by rw [h])]
  exact ⟨fun h0 => absurd rfl h0, fun _ => ⟨rfl, rfl, rfl⟩⟩

/-- Every admitted call returns, and keeps the invariant. -/
theorem VmOp_run_inv (ndebug : Bool) (IsGoodAddr : Nat → Bool) (o : VmOp) (s : VmState)
    (hwf : o.wf) (h : s.Inv) :
    ∃ s1, o.run ndebug IsGoodAddr s = some s1 ∧ s1.Inv := by
  cases o with
  | acquire cur addr size callback =>
    obtain ⟨hcur, hreq⟩ := hwf
    obtain ⟨hso, hro⟩ := request_ok_asserts addr size hreq
    refine ⟨_, by rw [VmOp.run, reservation_acquire_eq ndebug cur s addr size callback hso hro]; rfl, ?_⟩
    refine ⟨fun _ => Or.inl ?_, fun h0 => absurd h0 hcur⟩
    simp [_reservation_set]
  | update cur addr data size =>
    obtain ⟨_, hreq⟩ := hwf
    obtain ⟨hso, hro⟩ := request_ok_asserts addr size hreq
    by_cases hc : s.g_reservation_owner = cur ∧ s.g_reservation_addr = addr ∧
        s.g_reservation_size = size
    · refine ⟨_, by rw [VmOp.run, reservation_update_eq ndebug cur s addr data size hso hro
        hc.1 hc.2.1 hc.2.2]; rfl, ?_⟩
      exact ⟨fun h0 => absurd rfl h0, fun _ => ⟨rfl, rfl, rfl⟩⟩
    · have hc1 : s.g_reservation_owner ≠ cur ∨ s.g_reservation_addr ≠ addr ∨
          s.g_reservation_size ≠ size := by
        by_contra hn
        push_neg at hn
        exact hc hn
      refine ⟨s, ?_, h⟩
      simp only [VmOp.run, reservation_update, hso, hro]
      simp [hc1]
  | op cur addr size proc =>
    obtain ⟨_, hreq⟩ := hwf
    obtain ⟨hso, hro⟩ := request_ok_asserts addr size hreq
    refine ⟨_, by simp only [VmOp.run, reservation_op, hso, hro]; simp; rfl, ?_⟩
    exact _reservation_break_inv_of_addr _ addr rfl
  | query addr is_writing =>
    refine ⟨_, rfl, ?_⟩
    simp only [reservation_query]
    split_ifs <;> first | exact h | exact _reservation_break_inv s addr h
  | brk addr => exact ⟨_, rfl, _reservation_break_inv s addr h⟩
  | free cur =>
    refine ⟨_, rfl, ?_⟩
    simp only [reservation_free]
    split_ifs <;> first | exact h | exact _reservation_break_inv s _ h

/-! ## Claims -/

/-- C1: for a registered event flag with flag value `f`, every `bitptn` and every valid
`mode`, `sys_event_flag_trywait` returns `CELL_OK` exactly when the match predicate holds;
on `CELL_OK` it writes `f` to `*result` and leaves `flags` as the clear policy prescribes;
on a miss it returns `CELL_EBUSY` and the object is untouched; the waiter list is unchanged
in both cases. -/
theorem sys_event_flag_trywait_spec (m : IdManager) (eflag_id : Nat) (ef : EventFlag)
    (bitptn mode : Nat) (result : Option Nat)
    (hm : mode < 2 ^ 32) (hv : valid_mode mode) (hef : m.CheckId eflag_id = some ef) :
    ((sys_event_flag_trywait m eflag_id bitptn mode result).1 = CELL_OK ↔
        spec_matches mode bitptn ef.flags) ∧
    (spec_matches mode bitptn ef.flags →
      sys_event_flag_trywait m eflag_id bitptn mode result =
        (CELL_OK, m.store eflag_id { ef with flags := spec_clear mode bitptn ef.flags },
          result.map (fun _ => ef.flags))) ∧
    (¬ spec_matches mode bitptn ef.flags →
      sys_event_flag_trywait m eflag_id bitptn mode result =
        (CELL_EBUSY, m, result.map (fun _ => 0))) ∧
    (((sys_event_flag_trywait m eflag_id bitptn mode result).2.1.CheckId eflag_id).map
        EventFlag.waiters = some ef.waiters) := by
  have hok : mode_ok mode = true := (mode_ok_iff mode).2 hv
  by_cases hmatch : spec_matches mode bitptn ef.flags
  · have hfm : flag_match mode bitptn ef.flags = true := (flag_match_iff _ _ _ hm hv).2 hmatch
    have hrun : sys_event_flag_trywait m eflag_id bitptn mode result =
        (CELL_OK, m.store eflag_id { ef with flags := spec_clear mode bitptn ef.flags },
          result.map (fun _ => ef.flags)) := by
      simp [sys_event_flag_trywait, hok, hef, hfm, flag_clear_eq _ _ _ hm hv, Option.map_map,
        Function.comp_def]
    refine ⟨?_, fun _ => hrun, fun h => absurd hmatch h, ?_⟩
    · simp [hrun, hmatch]
    · simp [hrun, store_CheckId]
  · have hfm : flag_match mode bitptn ef.flags = false := by
      cases h : flag_match mode bitptn ef.flags
      · rfl
      · exact absurd ((flag_match_iff _ _ _ hm hv).1 h) hmatch
    have hrun : sys_event_flag_trywait m eflag_id bitptn mode result =
        (CELL_EBUSY, m, result.map (fun _ => 0)) := by
      simp [sys_event_flag_trywait, hok, hef, hfm]
    refine ⟨?_, fun h => absurd h hmatch, fun _ => hrun, ?_⟩
    · simp [hrun, hmatch]
    · simp [hrun, hef]

/-- Witness of C1: the miss of scenario S6 (`init = 0x1`, `bitptn = 0x2`, mode `AND`). -/
theorem sys_event_flag_trywait_spec_witness :
    sys_event_flag_trywait
        ⟨fun i => if i = 7 then some ⟨0x1, [], [], SYS_SYNC_FIFO, SYS_SYNC_WAITER_MULTIPLE, 0⟩
          else none, 8⟩ 7 0x2 0x1 (some 5) =
      (CELL_EBUSY,
        ⟨fun i => if i = 7 then some ⟨0x1, [], [], SYS_SYNC_FIFO, SYS_SYNC_WAITER_MULTIPLE, 0⟩
          else none, 8⟩,
        (some 5).map (fun _ => 0)) :=
  (sys_event_flag_trywait_spec
    ⟨fun i => if i = 7 then some ⟨0x1, [], [], SYS_SYNC_FIFO, SYS_SYNC_WAITER_MULTIPLE, 0⟩
      else none, 8⟩ 7 ⟨0x1, [], [], SYS_SYNC_FIFO, SYS_SYNC_WAITER_MULTIPLE, 0⟩ 0x2 0x1 (some 5)
    (by decide) (by decide) rfl).2.2.1 (by decide)

/-- C2: fast path of `sys_event_flag_wait`.  For a registered flag that admits the caller
(not `SINGLE` with a waiter present) and a valid `mode`, if `EventFlag::check` on the object
with the caller's waiter appended returns the caller's `tid`, then the call returns `CELL_OK`
at once, `*result` is the flag value before clearing, the waiter list is the one from before
the call, and `flags` follow the clear policy. -/
theorem sys_event_flag_wait_fast_path (ndebug : Bool) (GetThread : Nat → Option Nat)
    (tid : Nat) (m : IdManager) (eflag_id : Nat) (ef : EventFlag) (bitptn mode : Nat)
    (result : Option Nat) (timeout : Nat)
    (hm : mode < 2 ^ 32) (hv : valid_mode mode) (hef : m.CheckId eflag_id = some ef)
    (hperm : ¬ (ef.type = SYS_SYNC_WAITER_SINGLE ∧ ef.waiters.length > 0))
    (hsel : EventFlag.check ndebug GetThread
      { ef with waiters := ef.waiters ++ [{ tid := tid, mode := mode, bitptn := bitptn }] }
        = some tid) :
    sys_event_flag_wait_entry ndebug GetThread tid m eflag_id bitptn mode result timeout =
      some (.ret CELL_OK
        (m.store eflag_id { ef with flags := spec_clear mode bitptn ef.flags })
        (result.map (fun _ => ef.flags))) := by
  have hok : mode_ok mode = true := (mode_ok_iff mode).2 hv
  simp only [sys_event_flag_wait_entry, hok, hef, hsel]
  simp [hperm, flag_clear_eq _ _ _ hm hv, Option.map_map, Function.comp_def]

/-- Witness of C2: scenario S2, `init = 0xFF` and a waiter `{bitptn = 0x0F, OR|CLEAR_ALL}`:
the result is `0xFF` and the flags end as `0`. -/
theorem sys_event_flag_wait_fast_path_witness :
    sys_event_flag_wait_entry false (fun _ => some 0) 3
        ⟨fun i => if i = 7 then some ⟨0xFF, [], [], SYS_SYNC_FIFO, SYS_SYNC_WAITER_MULTIPLE, 0⟩
          else none, 8⟩ 7 0x0F 0x22 (some 1) 0 =
      some (.ret CELL_OK
        (IdManager.store ⟨fun i => if i = 7 then
            some ⟨0xFF, [], [], SYS_SYNC_FIFO, SYS_SYNC_WAITER_MULTIPLE, 0⟩ else none, 8⟩ 7
          ⟨0, [], [], SYS_SYNC_FIFO, SYS_SYNC_WAITER_MULTIPLE, 0⟩)
        (some 0xFF)) :=
  sys_event_flag_wait_fast_path false (fun _ => some 0) 3
    ⟨fun i => if i = 7 then some ⟨0xFF, [], [], SYS_SYNC_FIFO, SYS_SYNC_WAITER_MULTIPLE, 0⟩
      else none, 8⟩ 7 ⟨0xFF, [], [], SYS_SYNC_FIFO, SYS_SYNC_WAITER_MULTIPLE, 0⟩ 0x0F 0x22
    (some 1) 0 (by decide) (by decide) rfl (by decide) (by decide)

/-- C3: for an event flag with protocol `FIFO` (waiters carrying valid modes),
`EventFlag::check` returns the `tid` of the first waiter in insertion order that matches the
current flags, and `0` when no waiter matches. -/
theorem EventFlag_check_fifo (ndebug : Bool) (GetThread : Nat → Option Nat) (ef : EventFlag)
    (hp : ef.protocol = SYS_SYNC_FIFO)
    (hmodes : ∀ w ∈ ef.waiters, w.mode < 2 ^ 32 ∧ valid_mode w.mode) :
    ef.check ndebug GetThread =
      some (match ef.waiters.find? (fun w => decide (spec_matches w.mode w.bitptn ef.flags)) with
        | some w => w.tid
        | none => 0) := by
  unfold EventFlag.check
  rw [hp]
  exact check_loop_fifo ndebug GetThread ef.flags ef.waiters _ _ hmodes

/-- Witness of C3: flags `0x1`; the waiters `11` (AND `0x2`), `12` (OR `0x1`) and `13`
(AND `0x1`) queue in this order and `12` is selected. -/
theorem EventFlag_check_fifo_witness :
    EventFlag.check false (fun _ => none)
        ⟨0x1, [], [⟨11, 0x1, 0x2⟩, ⟨12, 0x2, 0x1⟩, ⟨13, 0x1, 0x1⟩], SYS_SYNC_FIFO,
          SYS_SYNC_WAITER_MULTIPLE, 0⟩ = some 12 :=
  EventFlag_check_fifo false (fun _ => none)
    ⟨0x1, [], [⟨11, 0x1, 0x2⟩, ⟨12, 0x2, 0x1⟩, ⟨13, 0x1, 0x1⟩], SYS_SYNC_FIFO,
      SYS_SYNC_WAITER_MULTIPLE, 0⟩ rfl (by decide)

/-- C4 (the code at the failing input): protocol `PRIORITY`, flags `0x1`, one waiter
(thread `5`, AND `0x1`) that matches, and thread `5` has priority `2^64 - 1`: `check` returns
`0` although a waiter matches, because `prio < highest_prio` is strict and `highest_prio`
starts at `~0ull`.  This holds with assertions enabled and with assertions compiled out. -/
theorem EventFlag_check_priority_max_prio :
    spec_matches 0x1 0x1 0x1 ∧
    EventFlag.check false (fun _ => some 0xFFFFFFFFFFFFFFFF)
        ⟨0x1, [], [⟨5, 0x1, 0x1⟩], SYS_SYNC_PRIORITY, SYS_SYNC_WAITER_MULTIPLE, 0⟩ = some 0 ∧
    EventFlag.check true (fun _ => some 0xFFFFFFFFFFFFFFFF)
        ⟨0x1, [], [⟨5, 0x1, 0x1⟩], SYS_SYNC_PRIORITY, SYS_SYNC_WAITER_MULTIPLE, 0⟩ = some 0 :=
  ⟨by decide, by decide, by decide⟩

/-- C5: for a registered event flag on which `check` cannot abort, `sys_event_flag_set`
returns `CELL_OK`, leaves `flags = old | bitptn` and the waiter list unchanged, and pushes the
value of `check` on the new flags into `signal` exactly when that value is non-zero. -/
theorem sys_event_flag_set_spec (ndebug : Bool) (GetThread : Nat → Option Nat) (m : IdManager)
    (eflag_id : Nat) (ef : EventFlag) (bitptn : Nat)
    (hef : m.CheckId eflag_id = some ef) (hsafe : check_safe ndebug GetThread ef) :
    ∃ target,
      EventFlag.check ndebug GetThread { ef with flags := ef.flags ||| bitptn } = some target ∧
      sys_event_flag_set ndebug GetThread m eflag_id bitptn =
        some (CELL_OK, m.store eflag_id
          { ef with
            flags := ef.flags ||| bitptn
            signal := if target ≠ 0 then ef.signal ++ [target] else ef.signal }) := by
  obtain ⟨target, ht⟩ :=
    check_total ndebug GetThread { ef with flags := ef.flags ||| bitptn } hsafe
  refine ⟨target, ht, ?_⟩
  simp only [sys_event_flag_set, hef, ht]
  by_cases h0 : target = 0 <;> simp [h0]

/-- Witness of C5: scenario S1.  With the single waiter on `0x3 AND` and flags `0`,
`set(0x1)` pushes nothing and the following `set(0x2)` pushes the waiter's tid `21`. -/
theorem sys_event_flag_set_spec_witness :
    sys_event_flag_set false (fun _ => some 1000) (S1_table 0x0 []) 7 0x1 =
      some (CELL_OK, (S1_table 0x0 []).store 7
        ⟨0x1, [], [⟨21, 0x1, 0x3⟩], SYS_SYNC_FIFO, SYS_SYNC_WAITER_MULTIPLE, 0⟩) ∧
    sys_event_flag_set false (fun _ => some 1000) (S1_table 0x1 []) 7 0x2 =
      some (CELL_OK, (S1_table 0x1 []).store 7
        ⟨0x3, [21], [⟨21, 0x1, 0x3⟩], SYS_SYNC_FIFO, SYS_SYNC_WAITER_MULTIPLE, 0⟩) := by
  constructor
  · obtain ⟨t, ht, hset⟩ := sys_event_flag_set_spec false (fun _ => some 1000)
      (S1_table 0x0 []) 7
      ⟨0x0, [], [⟨21, 0x1, 0x3⟩], SYS_SYNC_FIFO, SYS_SYNC_WAITER_MULTIPLE, 0⟩ 0x1 rfl
      (Or.inr ⟨Or.inl rfl, by simp⟩)
    have h0 : t = 0 := by
      have : some 0 = some t := ht
      exact (Option.some.inj this).symm
    subst h0
    exact hset
  · obtain ⟨t, ht, hset⟩ := sys_event_flag_set_spec false (fun _ => some 1000)
      (S1_table 0x1 []) 7
      ⟨0x1, [], [⟨21, 0x1, 0x3⟩], SYS_SYNC_FIFO, SYS_SYNC_WAITER_MULTIPLE, 0⟩ 0x2 rfl
      (Or.inr ⟨Or.inl rfl, by simp⟩)
    have h0 : t = 21 := by
      have : some 21 = some t := ht
      exact (Option.some.inj this).symm
    subst h0
    exact hset

/-- C6: wake step of `sys_event_flag_wait`.  A blocked caller whose `tid` is at the head of
`signal` and whose record is still in `waiters` returns `CELL_OK` with `*result` the flag value
at wake-up; the signal entry is consumed, its record (the first with its `tid`) is removed and
the others keep their order, its clear policy is applied, and the value of `check` on the
resulting object is pushed into `signal` exactly when it is non-zero. -/
theorem sys_event_flag_wait_wake (ndebug : Bool) (GetThread : Nat → Option Nat)
    (stopped : Bool) (tid : Nat) (ef : EventFlag) (bitptn mode : Nat) (result : Option Nat)
    (counter max_counter : Nat) (pre post : List EventFlagWaiter) (rest : List Nat)
    (hm : mode < 2 ^ 32) (hv : valid_mode mode)
    (hsig : ef.signal = tid :: rest)
    (hw : ef.waiters = pre ++ { tid := tid, mode := mode, bitptn := bitptn } :: post)
    (hpre : ∀ x ∈ pre, x.tid ≠ tid)
    (hsafe : check_safe ndebug GetThread ef) :
    ∃ target,
      EventFlag.check ndebug GetThread
        { ef with
          flags := spec_clear mode bitptn ef.flags
          signal := rest
          waiters := pre ++ post } = some target ∧
      sys_event_flag_wait_iter ndebug GetThread stopped tid ef bitptn mode result counter
          max_counter =
        some (.ret CELL_OK
          { ef with
            flags := spec_clear mode bitptn ef.flags
            signal := if target ≠ 0 then rest ++ [target] else rest
            waiters := pre ++ post }
          (result.map (fun _ => ef.flags))) := by
  have hsafe1 : check_safe ndebug GetThread
      { ef with
        flags := spec_clear mode bitptn ef.flags
        signal := rest
        waiters := pre ++ post } := by
    refine check_safe_of_waiters ndebug GetThread ef _ ?_ ?_ hsafe
    · rfl
    intro w hw1
    rw [hw]
    simp only [List.mem_append, List.mem_cons] at hw1 ⊢
    rcases hw1 with h | h
    · exact Or.inl h
    · exact Or.inr (Or.inr h)
  obtain ⟨target, ht⟩ := check_total ndebug GetThread _ hsafe1
  refine ⟨target, ht, ?_⟩
  have herase : (pre ++ ({ tid := tid, mode := mode, bitptn := bitptn } : EventFlagWaiter)
      :: post).eraseP (fun w => w.tid == tid) = pre ++ post := by
    rw [List.eraseP_append_right _ (by simpa using hpre)]
    simp
  have hany : (pre ++ ({ tid := tid, mode := mode, bitptn := bitptn } : EventFlagWaiter)
      :: post).any (fun w => w.tid == tid) = true := by
    simp
  simp only [sys_event_flag_wait_iter, hsig, hw, List.head?_cons, List.tail_cons, hany,
    herase, if_true, flag_clear_eq _ _ _ hm hv, ht]
  by_cases h0 : target = 0 <;> simp [h0]

/-- Witness of C6: scenario S1, the waiter `{bitptn = 0x3, AND, no clear}` woken with flags
`0x3`: the result is `0x3` and the flags stay `0x3`. -/
theorem sys_event_flag_wait_wake_witness :
    sys_event_flag_wait_iter false (fun _ => some 1000) false 21
        ⟨0x3, [21], [⟨21, 0x1, 0x3⟩], SYS_SYNC_FIFO, SYS_SYNC_WAITER_MULTIPLE, 0⟩ 0x3 0x1
        (some 0) 4 0xFFFFFFFFFFFFFFFF =
      some (.ret CELL_OK ⟨0x3, [], [], SYS_SYNC_FIFO, SYS_SYNC_WAITER_MULTIPLE, 0⟩
        (some 0x3)) := by
  obtain ⟨t, ht, hwake⟩ := sys_event_flag_wait_wake false (fun _ => some 1000) false 21
    ⟨0x3, [21], [⟨21, 0x1, 0x3⟩], SYS_SYNC_FIFO, SYS_SYNC_WAITER_MULTIPLE, 0⟩ 0x3 0x1
    (some 0) 4 0xFFFFFFFFFFFFFFFF [] [] [] (by decide) (by decide) rfl rfl (by simp)
    (Or.inr ⟨Or.inl rfl, by simp⟩)
  have h0 : t = 0 := by
    have : some 0 = some t := ht
    exact (Option.some.inj this).symm
  subst h0
  exact hwake

/-- C7 (claim as stated, refuted): while the emulator is stopped, `sys_event_flag_cancel` on
the flag of scenario S4 (three waiters) returns `CELL_OK` but leaves the cell `*num`, which
held `99`, unwritten: it does not hold `3`. -/
theorem sys_event_flag_cancel_stopped_counterexample :
    (sys_event_flag_cancel true S4_table 7 (some 99)).1 = CELL_OK ∧
    (sys_event_flag_cancel true S4_table 7 (some 99)).2.2 = some 99 ∧
    (sys_event_flag_cancel true S4_table 7 (some 99)).2.2 ≠ some S4_flag.waiters.length := by
  refine ⟨rfl, rfl, by decide⟩

/-- C7 (amended): for a registered event flag with `k` waiters, `sys_event_flag_cancel`
returns `CELL_OK`, empties the waiter list, keeps `flags`, pushes the `k` snapshotted tids
into `signal` in waiter order, and writes `k` to `*num` when `num` is provided and the
emulator is not stopped (when it is stopped `*num` is left as it was).  Afterwards every thread
that finds its tid at the head of `signal` returns `CELL_ECANCELED` leaving `flags` untouched,
and `sys_event_flag_destroy` returns `CELL_OK`, both right after the cancel and after these
wake-ups. -/
theorem sys_event_flag_cancel_spec (ndebug : Bool) (GetThread : Nat → Option Nat)
    (stopped : Bool) (m : IdManager) (eflag_id : Nat) (ef : EventFlag) (num : Option Nat)
    (cs : List WaitCaller)
    (hef : m.CheckId eflag_id = some ef) (hk : ef.waiters.length < 2 ^ 32)
    (hcs : cs.map (fun c => c.tid) = ef.signal ++ ef.waiters.map (fun w => w.tid)) :
    sys_event_flag_cancel stopped m eflag_id num =
      (CELL_OK,
        m.store eflag_id
          { ef with waiters := [], signal := ef.signal ++ ef.waiters.map (fun w => w.tid) },
        if stopped then num else num.map (fun _ => ef.waiters.length)) ∧
    run_wait_iters ndebug GetThread cs
        { ef with waiters := [], signal := ef.signal ++ ef.waiters.map (fun w => w.tid) } =
      some (cs.map (fun c => (CELL_ECANCELED, c.result)),
        { ef with waiters := [], signal := [] }) ∧
    sys_event_flag_destroy
        (m.store eflag_id
          { ef with waiters := [], signal := ef.signal ++ ef.waiters.map (fun w => w.tid) })
        eflag_id =
      (CELL_OK,
        (m.store eflag_id
          { ef with waiters := [], signal := ef.signal ++ ef.waiters.map (fun w => w.tid) }
          ).RemoveID eflag_id) ∧
    sys_event_flag_destroy (m.store eflag_id { ef with waiters := [], signal := [] })
        eflag_id =
      (CELL_OK, (m.store eflag_id { ef with waiters := [], signal := [] }).RemoveID eflag_id) := by
  refine ⟨?_, ?_, ?_, ?_⟩
  · have hk1 : ef.waiters.length % 4294967296 = ef.waiters.length := Nat.mod_eq_of_lt hk
    cases stopped <;> simp [sys_event_flag_cancel, hef, hk1]
  · exact run_wait_iters_cancelled ndebug GetThread cs _ rfl hcs.symm
  · simp [sys_event_flag_destroy, store_CheckId]
  · simp [sys_event_flag_destroy, store_CheckId]

/-- Witness of C7: scenario S4, three waiters, emulator running: `n = 3`, the three waiters
return `CELL_ECANCELED` and `destroy` afterwards returns `CELL_OK`. -/
theorem sys_event_flag_cancel_spec_witness :
    sys_event_flag_cancel false S4_table 7 (some 99) =
      (CELL_OK,
        S4_table.store 7
          ⟨0x0, [31, 32, 33], [], SYS_SYNC_PRIORITY, SYS_SYNC_WAITER_MULTIPLE, 0⟩,
        some 3) ∧
    run_wait_iters false (fun _ => some 1000)
        [⟨31, 0x1, 0x1, some 0, 0, 5, false⟩, ⟨32, 0x6, 0x2, none, 1, 5, false⟩,
          ⟨33, 0x8, 0x11, some 0, 2, 5, false⟩]
        ⟨0x0, [31, 32, 33], [], SYS_SYNC_PRIORITY, SYS_SYNC_WAITER_MULTIPLE, 0⟩ =
      some ([(CELL_ECANCELED, some 0), (CELL_ECANCELED, none), (CELL_ECANCELED, some 0)],
        ⟨0x0, [], [], SYS_SYNC_PRIORITY, SYS_SYNC_WAITER_MULTIPLE, 0⟩) ∧
    (sys_event_flag_destroy
        (S4_table.store 7 ⟨0x0, [], [], SYS_SYNC_PRIORITY, SYS_SYNC_WAITER_MULTIPLE, 0⟩)
        7).1 = CELL_OK := by
  have h := sys_event_flag_cancel_spec false (fun _ => some 1000) false S4_table 7 S4_flag
    (some 99)
    [⟨31, 0x1, 0x1, some 0, 0, 5, false⟩, ⟨32, 0x6, 0x2, none, 1, 5, false⟩,
      ⟨33, 0x8, 0x11, some 0, 2, 5, false⟩] rfl (by decide) rfl
  exact ⟨h.1, h.2.1, congrArg Prod.fst h.2.2.2⟩

/-- C8 (the code at the failing input): in the start-up state, where no reservation is held,
`reservation_break(0x10)` returns `true` and turns the protection of page `0` from `NONE` into
`RW`: `_reservation_break` compares `g_reservation_addr >> 12` with `addr >> 12` without
looking at `g_reservation_owner`, and the `addr` of the empty reservation is `0`. -/
theorem reservation_break_empty_page0 :
    vm_init.Empty ∧ vm_init.prot 0 = Prot.NONE ∧
    (reservation_break vm_init 0x10).1 = true ∧
    (reservation_break vm_init 0x10).2.prot 0 = Prot.RW := by
  refine ⟨⟨rfl, rfl, rfl, rfl⟩, rfl, rfl, ?_⟩
  simp +decide [reservation_break, _reservation_break, vm_init]

/-- C9: round trip.  For every thread `cur`, every size in `{1,2,4,8,128}` and every `u32`
address whose range lies in one 4 KiB page, `reservation_acquire` followed at once by
`reservation_update` from the same thread returns `true`, leaves the reservation `Empty` and
the page `RW`, leaves the bytes of `buf` at `addr` (and every other byte as it was), and invokes
no callback besides the one of the reservation that `acquire` had to break: `update` invokes
nothing, and `cb` is not invoked unless it was the stored callback of that earlier
reservation. -/
theorem reservation_acquire_update_roundtrip (ndebug : Bool) (cur : Nat) (s : VmState)
    (addr size : Nat) (cb : Option Nat) (buf : Nat → Nat)
    (hsize : size = 1 ∨ size = 2 ∨ size = 4 ∨ size = 8 ∨ size = 128)
    (haddr : addr < 2 ^ 32) (hrange : (addr + size - 1) >>> 12 = addr >>> 12) :
    ∃ broken dst s1 s2,
      reservation_acquire ndebug cur s addr size cb = some (broken, dst, s1) ∧
      s1.cb_calls = s.cb_calls ++
        (if s.g_reservation_owner ≠ 0 then s.g_reservation_cb.toList else []) ∧
      reservation_update ndebug cur s1 addr buf size = some (true, s2) ∧
      s2.Empty ∧
      s2.prot (addr &&& u32_not 0xfff) = Prot.RW ∧
      (∀ i, i < size → s2.mem (addr + i) = buf i) ∧
      (∀ a, ¬ (addr ≤ a ∧ a < addr + size) → s2.mem a = s.mem a) ∧
      s2.cb_calls = s1.cb_calls ∧
      (∀ c, cb = some c → (s.g_reservation_owner = 0 ∨ s.g_reservation_cb ≠ some c) →
        s2.cb_calls.count c = s.cb_calls.count c) := by
  have hso : size_ok size = true := size_ok_of_mem size hsize
  have hpos : 0 < size := by omega
  have hro : range_ok addr size = true := range_ok_of_page addr size haddr hpos hrange
  have hacq := reservation_acquire_eq ndebug cur s addr size cb hso hro
  have hupd := reservation_update_eq ndebug cur _ addr buf size hso hro
    (rfl : ({ _reservation_set (if s.g_reservation_owner ≠ 0 then
        _reservation_break s s.g_reservation_addr else (false, s)).2 addr false with
      g_reservation_addr := addr
      g_reservation_size := size
      g_reservation_owner := cur
      g_reservation_cb := cb } : VmState).g_reservation_owner = cur) rfl rfl
  refine ⟨_, _, _, _, hacq, ?_, hupd, ?_, ?_, ?_, ?_, ?_, ?_⟩
  · by_cases ho : s.g_reservation_owner = 0
    · simp [_reservation_set, ho]
    · simp [_reservation_set, _reservation_break_hit, ho]
  · exact ⟨rfl, rfl, rfl, rfl⟩
  · simp
  · intro i hi
    simp [hi]
  · intro a ha
    by_cases ho : s.g_reservation_owner = 0
    · simp [_reservation_set, ha, ho]
    · simp [_reservation_set, _reservation_break_hit, ha, ho]
  · rfl
  · intro c _ hc
    by_cases ho : s.g_reservation_owner = 0
    · simp [_reservation_set, ho]
    · have hne : s.g_reservation_cb ≠ some c := by
        rcases hc with h | h
        · exact absurd h ho
        · exact h
      cases hcb : s.g_reservation_cb with
      | none => simp [_reservation_set, _reservation_break_hit, ho, hcb]
      | some d =>
        have hd : d ≠ c := fun e => hne (by rw [hcb, e])
        simp [_reservation_set, _reservation_break_hit, ho, hcb, List.count_append,
          List.count_cons, hd]

/-- Witness of C9: thread `1` acquires `(0x1000, 8)` with callback `42` in the start-up state
and updates at once. -/
theorem reservation_acquire_update_roundtrip_witness :
    ∃ broken dst s1 s2,
      reservation_acquire false 1 vm_init 0x1000 8 (some 42) = some (broken, dst, s1) ∧
      s1.cb_calls = vm_init.cb_calls ++
        (if vm_init.g_reservation_owner ≠ 0 then vm_init.g_reservation_cb.toList else []) ∧
      reservation_update false 1 s1 0x1000 (fun i => i + 1) 8 = some (true, s2) ∧
      s2.Empty ∧
      s2.prot (0x1000 &&& u32_not 0xfff) = Prot.RW ∧
      (∀ i, i < 8 → s2.mem (0x1000 + i) = (fun i => i + 1) i) ∧
      (∀ a, ¬ (0x1000 ≤ a ∧ a < 0x1000 + 8) → s2.mem a = vm_init.mem a) ∧
      s2.cb_calls = s1.cb_calls ∧
      (∀ c, some 42 = some c →
        (vm_init.g_reservation_owner = 0 ∨ vm_init.g_reservation_cb ≠ some c) →
        s2.cb_calls.count c = vm_init.cb_calls.count c) :=
  reservation_acquire_update_roundtrip false 1 vm_init 0x1000 8 (some 42) (fun i => i + 1)
    (by decide) (by decide) (by decide)

/-- C10: after thread `A` has acquired `(addr, size)` with callback `cb`, a
`reservation_break(a')` for any address `a'` of the same 4 KiB page (the call does not look at
the calling thread) returns `true`, invokes `cb` exactly once, restores the page to `RW` and
empties the reservation; the following `reservation_update(addr, data, size)` of `A` returns
`false` and changes nothing; and no later sequence of calls that does not hand `cb` to the
core again invokes `cb`. -/
theorem reservation_break_foreign (ndebug : Bool) (IsGoodAddr : Nat → Bool) (A : Nat)
    (s : VmState) (addr size cb a' : Nat) (data : Nat → Nat)
    (hsize : size = 1 ∨ size = 2 ∨ size = 4 ∨ size = 8 ∨ size = 128)
    (haddr : addr < 2 ^ 32) (hrange : (addr + size - 1) >>> 12 = addr >>> 12)
    (ha' : a' < 2 ^ 32) (hpage : a' >>> 12 = addr >>> 12) :
    ∃ broken dst s1 s2,
      reservation_acquire ndebug A s addr size (some cb) = some (broken, dst, s1) ∧
      reservation_break s1 a' = (true, s2) ∧
      s2.cb_calls = s1.cb_calls ++ [cb] ∧
      s2.prot (addr &&& u32_not 0xfff) = Prot.RW ∧
      s2.Empty ∧
      s2.mem = s1.mem ∧
      reservation_update ndebug A s2 addr data size = some (false, s2) ∧
      ∀ (later : List VmOp) (s3 : VmState), (∀ o ∈ later, o.installs cb = false) →
        run_ops ndebug IsGoodAddr later s2 = some s3 →
        s3.cb_calls.count cb = s2.cb_calls.count cb := by
  have hso : size_ok size = true := size_ok_of_mem size hsize
  have hpos : 0 < size := by omega
  have hro : range_ok addr size = true := range_ok_of_page addr size haddr hpos hrange
  have hacq := reservation_acquire_eq ndebug A s addr size (some cb) hso hro
  have hbase : a' &&& u32_not 0xfff = addr &&& u32_not 0xfff :=
    page_base_congr a' addr ha' haddr hpage
  have hbrk := _reservation_break_hit
    { _reservation_set (if s.g_reservation_owner ≠ 0 then
        _reservation_break s s.g_reservation_addr else (false, s)).2 addr false with
      g_reservation_addr := addr
      g_reservation_size := size
      g_reservation_owner := A
      g_reservation_cb := some cb } a' hpage.symm
  refine ⟨_, _, _, _, hacq, hbrk, ?_, ?_, ?_, ?_, ?_, ?_⟩
  · simp
  · dsimp only
    rw [hbase, Function.update_same]
  · exact ⟨rfl, rfl, rfl, rfl⟩
  · rfl
  · have hne : ¬ (0 = size) := by omega
    simp [reservation_update, hso, hro, hne]
  · intro later s3 hl hrun
    exact (run_ops_keeps ndebug IsGoodAddr cb later _ s3 hl (by simp) hrun).2

/-- Witness of C10: scenario S5, `acquire(addr = 0x1000, size = 8, cb = 42)` by thread `1` in
the start-up state, then `break(0x1004)`. -/
theorem reservation_break_foreign_witness :
    ∃ broken dst s1 s2,
      reservation_acquire false 1 vm_init 0x1000 8 (some 42) = some (broken, dst, s1) ∧
      reservation_break s1 0x1004 = (true, s2) ∧
      s2.cb_calls = s1.cb_calls ++ [42] ∧
      s2.prot (0x1000 &&& u32_not 0xfff) = Prot.RW ∧
      s2.Empty ∧
      s2.mem = s1.mem ∧
      reservation_update false 1 s2 0x1000 (fun _ => 0xAB) 8 = some (false, s2) ∧
      ∀ (later : List VmOp) (s3 : VmState), (∀ o ∈ later, o.installs 42 = false) →
        run_ops false (fun _ => true) later s2 = some s3 →
        s3.cb_calls.count 42 = s2.cb_calls.count 42 :=
  reservation_break_foreign false (fun _ => true) 1 vm_init 0x1000 8 42 0x1004 (fun _ => 0xAB)
    (by decide) (by decide) (by decide) (by decide) (by decide)

/-- C11: under the preconditions of the call (size in `{1,2,4,8,128}`, single-page `u32`
range), `reservation_update` returns, and it returns `true` exactly when the calling thread is
the recorded owner and `addr` and `size` equal the recorded ones; whenever it returns `false`
the whole state (reservation fields, callback and callback log, page protections, memory) is
unchanged. -/
theorem reservation_update_spec (ndebug : Bool) (cur : Nat) (s : VmState) (addr : Nat)
    (data : Nat → Nat) (size : Nat) (hreq : request_ok addr size) :
    ∃ b s1, reservation_update ndebug cur s addr data size = some (b, s1) ∧
      (b = true ↔ (s.g_reservation_owner = cur ∧ s.g_reservation_addr = addr ∧
        s.g_reservation_size = size)) ∧
      (b = false → s1 = s) := by
  obtain ⟨hso, hro⟩ := request_ok_asserts addr size hreq
  by_cases hc : s.g_reservation_owner = cur ∧ s.g_reservation_addr = addr ∧
      s.g_reservation_size = size
  · exact ⟨true, _, reservation_update_eq ndebug cur s addr data size hso hro hc.1 hc.2.1
      hc.2.2, by simp [hc], by simp⟩
  · have hc1 : s.g_reservation_owner ≠ cur ∨ s.g_reservation_addr ≠ addr ∨
        s.g_reservation_size ≠ size := by
      by_contra hn
      push_neg at hn
      exact hc hn
    refine ⟨false, s, ?_, by simp [hc], fun _ => rfl⟩
    simp only [reservation_update, hso, hro]
    simp [hc1]

/-- Witness of C11: in the start-up state thread `1` updates `(0x1000, 8)` without holding a
reservation. -/
theorem reservation_update_spec_witness :
    ∃ b s1, reservation_update false 1 vm_init 0x1000 (fun _ => 0xAB) 8 = some (b, s1) ∧
      (b = true ↔ (vm_init.g_reservation_owner = 1 ∧ vm_init.g_reservation_addr = 0x1000 ∧
        vm_init.g_reservation_size = 8)) ∧
      (b = false → s1 = vm_init) :=
  reservation_update_spec false 1 vm_init 0x1000 (fun _ => 0xAB) 8
    ⟨by decide, by decide, by decide⟩

/-- C12: reservation invariant.  Starting from an `Empty` state, every sequence of admitted
calls (`acquire`, `update`, `op`, `query`, `break`, `free`, made by threads, with sizes in
`{1,2,4,8,128}` and single-page ranges) runs to a state in which: if the reservation is `Held`
the guest-view page of its address is `RO` or `NONE`, and if it is `Empty` then `addr = 0`,
`size = 0` and the callback is null. -/
theorem reservation_invariant (ndebug : Bool) (IsGoodAddr : Nat → Bool) (ops : List VmOp)
    (s0 : VmState) (h0 : s0.Empty) (hwf : ∀ o ∈ ops, o.wf) :
    ∃ s, run_ops ndebug IsGoodAddr ops s0 = some s ∧ s.Inv := by
  have hinv0 : s0.Inv := ⟨fun h => absurd h0.1 h, fun _ => ⟨h0.2.1, h0.2.2.1, h0.2.2.2⟩⟩
  clear h0
  induction ops generalizing s0 with
  | nil => exact ⟨s0, rfl, hinv0⟩
  | cons o os ih =>
    obtain ⟨s1, hrun, hinv1⟩ := VmOp_run_inv ndebug IsGoodAddr o s0
      (hwf o (List.mem_cons_self _ _)) hinv0
    obtain ⟨s2, hrun2, hinv2⟩ := ih s1 (fun x hx => hwf x (List.mem_cons_of_mem _ hx)) hinv1
    exact ⟨s2, by simp only [run_ops, hrun]; exact hrun2, hinv2⟩

/-- Witness of C12: from the `Empty` state with every page `RW`, thread `1` acquires
`(0x1000, 8)`, a store to `0x2004` is queried, thread `2` acquires `(0x3008, 4)`, and thread `2`
frees. -/
theorem reservation_invariant_witness :
    ∃ s, run_ops false (fun _ => true)
        [.acquire 1 0x1000 8 (some 42), .query 0x2004 true, .acquire 2 0x3008 4 none, .free 2]
        ⟨none, 0, 0, 0, fun _ => Prot.RW, fun _ => 0, []⟩ = some s ∧ s.Inv :=
  reservation_invariant false (fun _ => true)
    [.acquire 1 0x1000 8 (some 42), .query 0x2004 true, .acquire 2 0x3008 4 none, .free 2]
    ⟨none, 0, 0, 0, fun _ => Prot.RW, fun _ => 0, []⟩ ⟨rfl, rfl, rfl, rfl⟩
    (by
      intro o ho
      simp only [List.mem_cons, List.mem_singleton, List.not_mem_nil, or_false] at ho
      rcases ho with h | h | h | h <;> subst h <;> simp +decide [VmOp.wf, request_ok])

/-- C13: `sys_event_flag_wait` and `sys_event_flag_trywait` return `CELL_EINVAL` exactly when
`mode` is not valid (low nibble not exactly `AND` or `OR`, or remaining bits not exactly `0`,
`CLEAR` or `CLEAR_ALL`).  The test comes before the id lookup, so it holds for registered and
unregistered ids alike, and on `CELL_EINVAL` the table, hence every event flag, is unchanged.
No pass of the polling loop returns `CELL_EINVAL`. -/
theorem sys_event_flag_mode_check (ndebug : Bool) (GetThread : Nat → Option Nat) (tid : Nat)
    (m : IdManager) (eflag_id bitptn mode : Nat) (result : Option Nat) (timeout : Nat)
    (stopped : Bool) (ef : EventFlag) (counter max_counter : Nat) :
    ((∃ m1 r1, sys_event_flag_wait_entry ndebug GetThread tid m eflag_id bitptn mode result
        timeout = some (.ret CELL_EINVAL m1 r1)) ↔ ¬ valid_mode mode) ∧
    (sys_event_flag_wait_entry ndebug GetThread tid m eflag_id bitptn mode result timeout =
        some (.ret CELL_EINVAL m (result.map (fun _ => 0))) ↔ ¬ valid_mode mode) ∧
    ((sys_event_flag_trywait m eflag_id bitptn mode result).1 = CELL_EINVAL ↔
        ¬ valid_mode mode) ∧
    (sys_event_flag_trywait m eflag_id bitptn mode result =
        (CELL_EINVAL, m, result.map (fun _ => 0)) ↔ ¬ valid_mode mode) ∧
    (∀ ef1 r1, sys_event_flag_wait_iter ndebug GetThread stopped tid ef bitptn mode result
        counter max_counter ≠ some (.ret CELL_EINVAL ef1 r1)) := by
  have hwait : ∀ m1 r1, valid_mode mode →
      sys_event_flag_wait_entry ndebug GetThread tid m eflag_id bitptn mode result timeout ≠
        some (.ret CELL_EINVAL m1 r1) := by
    intro m1 r1 hv
    have hok : mode_ok mode = true := (mode_ok_iff mode).2 hv
    simp only [sys_event_flag_wait_entry, hok]
    cases m.CheckId eflag_id with
    | none => simp
    | some ef0 =>
      simp only [not_true_eq_false, if_false]
      repeat' split
      all_goals simp
  have htry : valid_mode mode →
      (sys_event_flag_trywait m eflag_id bitptn mode result).1 ≠ CELL_EINVAL := by
    intro hv
    have hok : mode_ok mode = true := (mode_ok_iff mode).2 hv
    simp only [sys_event_flag_trywait, hok]
    cases m.CheckId eflag_id with
    | none => simp
    | some ef0 =>
      simp only [not_true_eq_false, if_false]
      split_ifs <;> simp
  have hbad : ¬ valid_mode mode → mode_ok mode = false := by
    intro hv
    cases h : mode_ok mode
    · rfl
    · exact absurd ((mode_ok_iff mode).1 h) hv
  refine ⟨⟨?_, ?_⟩, ⟨?_, ?_⟩, ⟨?_, ?_⟩, ⟨?_, ?_⟩, ?_⟩
  · rintro ⟨m1, r1, h⟩ hv
    exact hwait m1 r1 hv h
  · intro hv
    exact ⟨m, result.map (fun _ => 0), by simp [sys_event_flag_wait_entry, hbad hv]⟩
  · intro h hv
    exact hwait _ _ hv h
  · intro hv
    simp [sys_event_flag_wait_entry, hbad hv]
  · intro h hv
    exact htry hv h
  · intro hv
    simp [sys_event_flag_trywait, hbad hv]
  · intro h hv
    exact htry hv (by rw [h])
  · intro hv
    simp [sys_event_flag_trywait, hbad hv]
  · intro ef1 r1
    simp only [sys_event_flag_wait_iter]
    repeat' split
    all_goals simp

/-- C14: for a registered event flag with value `f`, `sys_event_flag_clear(id, mask)` returns
`CELL_OK` and leaves `flags = f & mask` with waiters and signal unchanged; hence
`clear(id, ~0)` leaves the object as it was, and `set(id, 0)` leaves `flags = f` (it may still
push the target that `check` selects). -/
theorem sys_event_flag_clear_spec (ndebug : Bool) (GetThread : Nat → Option Nat)
    (m : IdManager) (eflag_id : Nat) (ef : EventFlag) (mask : Nat)
    (hef : m.CheckId eflag_id = some ef) (hf : ef.flags < 2 ^ 64)
    (hsafe : check_safe ndebug GetThread ef) :
    sys_event_flag_clear m eflag_id mask =
      (CELL_OK, m.store eflag_id { ef with flags := ef.flags &&& mask }) ∧
    sys_event_flag_clear m eflag_id 0xFFFFFFFFFFFFFFFF = (CELL_OK, m.store eflag_id ef) ∧
    ∃ target,
      sys_event_flag_set ndebug GetThread m eflag_id 0 =
        some (CELL_OK, m.store eflag_id
          { ef with signal := if target ≠ 0 then ef.signal ++ [target] else ef.signal }) := by
  have hall : ef.flags &&& 0xFFFFFFFFFFFFFFFF = ef.flags := by
    have h1 : (0xFFFFFFFFFFFFFFFF : Nat) = 2 ^ 64 - 1 := by decide
    rw [h1, Nat.and_pow_two_sub_one_eq_mod, Nat.mod_eq_of_lt hf]
  refine ⟨by simp [sys_event_flag_clear, hef], ?_, ?_⟩
  · simp only [sys_event_flag_clear, hef, hall]
  · have hz : ({ ef with flags := ef.flags ||| 0 } : EventFlag) = ef := by
      simp
    obtain ⟨target, ht⟩ := check_total ndebug GetThread ef hsafe
    refine ⟨target, ?_⟩
    simp only [sys_event_flag_set, hef, hz, ht]
    by_cases h0 : target = 0 <;> simp [h0]

/-- Witness of C14: the flag of scenario S1 with value `0x5`. -/
theorem sys_event_flag_clear_spec_witness :
    sys_event_flag_clear (S1_table 0x5 []) 7 0x4 =
      (CELL_OK, (S1_table 0x5 []).store 7
        ⟨0x4, [], [⟨21, 0x1, 0x3⟩], SYS_SYNC_FIFO, SYS_SYNC_WAITER_MULTIPLE, 0⟩) ∧
    sys_event_flag_clear (S1_table 0x5 []) 7 0xFFFFFFFFFFFFFFFF =
      (CELL_OK, (S1_table 0x5 []).store 7
        ⟨0x5, [], [⟨21, 0x1, 0x3⟩], SYS_SYNC_FIFO, SYS_SYNC_WAITER_MULTIPLE, 0⟩) := by
  have h := sys_event_flag_clear_spec false (fun _ => some 1000) (S1_table 0x5 []) 7
    ⟨0x5, [], [⟨21, 0x1, 0x3⟩], SYS_SYNC_FIFO, SYS_SYNC_WAITER_MULTIPLE, 0⟩ 0x4 rfl
    (by decide) (Or.inr ⟨Or.inl rfl, by simp⟩)
  exact ⟨h.1, h.2.1⟩

/-- C15: `sys_event_flag_destroy(id)` returns `CELL_ESRCH` if `id` is not registered; returns
`CELL_EBUSY` and leaves the table unchanged if the waiter list of the flag is non-empty;
otherwise removes `id` from the table and returns `CELL_OK`.  Hence a return of `CELL_OK`
implies that the flag was registered with an empty waiter list. -/
theorem sys_event_flag_destroy_spec (m : IdManager) (eflag_id : Nat) :
    (m.CheckId eflag_id = none → sys_event_flag_destroy m eflag_id = (CELL_ESRCH, m)) ∧
    (∀ ef, m.CheckId eflag_id = some ef → ef.waiters ≠ [] →
      sys_event_flag_destroy m eflag_id = (CELL_EBUSY, m)) ∧
    (∀ ef, m.CheckId eflag_id = some ef → ef.waiters = [] →
      sys_event_flag_destroy m eflag_id = (CELL_OK, m.RemoveID eflag_id) ∧
      (m.RemoveID eflag_id).CheckId eflag_id = none ∧
      ∀ i, i ≠ eflag_id → (m.RemoveID eflag_id).CheckId i = m.CheckId i) ∧
    ((sys_event_flag_destroy m eflag_id).1 = CELL_OK →
      ∃ ef, m.CheckId eflag_id = some ef ∧ ef.waiters = []) := by
  refine ⟨?_, ?_, ?_, ?_⟩
  · intro h
    simp [sys_event_flag_destroy, h]
  · intro ef h hw
    simp [sys_event_flag_destroy, h, hw]
  · intro ef h hw
    refine ⟨by simp [sys_event_flag_destroy, h, hw], by simp [IdManager.RemoveID,
      IdManager.CheckId], ?_⟩
    intro i hi
    simp [IdManager.RemoveID, IdManager.CheckId, hi]
  · intro h
    cases hc : m.CheckId eflag_id with
    | none => simp [sys_event_flag_destroy, hc] at h
    | some ef =>
      refine ⟨ef, rfl, ?_⟩
      by_contra hw
      simp [sys_event_flag_destroy, hc, hw] at h

/-- Witness of C15: the table of scenario S4 (three waiters) answers `CELL_EBUSY`, an unknown
id answers `CELL_ESRCH`, and after the waiters are gone the flag is removed with `CELL_OK`. -/
theorem sys_event_flag_destroy_spec_witness :
    sys_event_flag_destroy S4_table 7 = (CELL_EBUSY, S4_table) ∧
    sys_event_flag_destroy S4_table 9 = (CELL_ESRCH, S4_table) ∧
    (sys_event_flag_destroy (S4_table.store 7 { S4_flag with waiters := [] }) 7).1 =
      CELL_OK := by
  refine ⟨(sys_event_flag_destroy_spec S4_table 7).2.1 S4_flag rfl (by decide),
    (sys_event_flag_destroy_spec S4_table 9).1 rfl, ?_⟩
  have h := ((sys_event_flag_destroy_spec
    (S4_table.store 7 { S4_flag with waiters := [] }) 7).2.2.1
    { S4_flag with waiters := [] } rfl rfl).1
  rw [h]

/-- C16: for a registered event flag of type `SINGLE` whose waiter list is non-empty,
`sys_event_flag_wait` with a valid mode returns `CELL_EPERM` for every `bitptn` and leaves the
table, hence flags, waiters and signal, unchanged. -/
theorem sys_event_flag_wait_single (ndebug : Bool) (GetThread : Nat → Option Nat) (tid : Nat)
    (m : IdManager) (eflag_id : Nat) (ef : EventFlag) (bitptn mode : Nat)
    (result : Option Nat) (timeout : Nat)
    (hv : valid_mode mode) (hef : m.CheckId eflag_id = some ef)
    (htype : ef.type = SYS_SYNC_WAITER_SINGLE) (hw : ef.waiters ≠ []) :
    sys_event_flag_wait_entry ndebug GetThread tid m eflag_id bitptn mode result timeout =
      some (.ret CELL_EPERM m (result.map (fun _ => 0))) := by
  have hok : mode_ok mode = true := (mode_ok_iff mode).2 hv
  have hlen : ef.waiters.length > 0 := List.length_pos.2 hw
  simp [sys_event_flag_wait_entry, hok, hef, htype, hlen]

/-- Witness of C16: a `SINGLE` flag with value `0x1` and one waiter; a second thread waits on
`bitptn = 0x1`, mode `AND`, which the flags already match. -/
theorem sys_event_flag_wait_single_witness :
    spec_matches 0x1 0x1 0x1 ∧
    sys_event_flag_wait_entry false (fun _ => some 1000) 22
        ⟨fun i => if i = 7 then
          some ⟨0x1, [], [⟨21, 0x1, 0x2⟩], SYS_SYNC_FIFO, SYS_SYNC_WAITER_SINGLE, 0⟩
          else none, 8⟩ 7 0x1 0x1 (some 9) 0 =
      some (.ret CELL_EPERM
        ⟨fun i => if i = 7 then
          some ⟨0x1, [], [⟨21, 0x1, 0x2⟩], SYS_SYNC_FIFO, SYS_SYNC_WAITER_SINGLE, 0⟩
          else none, 8⟩ (some 0)) :=
  ⟨by decide,
    sys_event_flag_wait_single false (fun _ => some 1000) 22
      ⟨fun i => if i = 7 then
        some ⟨0x1, [], [⟨21, 0x1, 0x2⟩], SYS_SYNC_FIFO, SYS_SYNC_WAITER_SINGLE, 0⟩
        else none, 8⟩ 7
      ⟨0x1, [], [⟨21, 0x1, 0x2⟩], SYS_SYNC_FIFO, SYS_SYNC_WAITER_SINGLE, 0⟩ 0x1 0x1 (some 9) 0
      (by decide) rfl rfl (by decide)⟩

/-- C17: `sys_event_flag_create` returns `CELL_EFAULT` if the id out-pointer or `attr` is null;
otherwise `CELL_EINVAL`, registering nothing, if `attr.protocol` is none of `FIFO`, `PRIORITY`,
`RETRY`, `PRIORITY_INHERIT`, or `attr.pshared ≠ 0x200`, or `attr.type` is neither `SINGLE` nor
`MULTIPLE`; otherwise `CELL_OK`: a new event flag with `flags = init`, the given protocol, type
and name and no waiter is registered, its id is written to the out-pointer, and the other
entries of the table are untouched. -/
theorem sys_event_flag_create_spec (m : IdManager) (eflag_id : Option Nat)
    (attr : Option sys_event_flag_attr) (init : Nat) :
    ((eflag_id = none ∨ attr = none) →
      sys_event_flag_create m eflag_id attr init = (CELL_EFAULT, m, eflag_id)) ∧
    (∀ p a, eflag_id = some p → attr = some a →
      (¬ (a.protocol = SYS_SYNC_FIFO ∨ a.protocol = SYS_SYNC_PRIORITY ∨
          a.protocol = SYS_SYNC_RETRY ∨ a.protocol = SYS_SYNC_PRIORITY_INHERIT) ∨
        a.pshared ≠ 0x200 ∨
        ¬ (a.type = SYS_SYNC_WAITER_SINGLE ∨ a.type = SYS_SYNC_WAITER_MULTIPLE)) →
      sys_event_flag_create m eflag_id attr init = (CELL_EINVAL, m, eflag_id)) ∧
    (∀ p a, eflag_id = some p → attr = some a →
      (a.protocol = SYS_SYNC_FIFO ∨ a.protocol = SYS_SYNC_PRIORITY ∨
          a.protocol = SYS_SYNC_RETRY ∨ a.protocol = SYS_SYNC_PRIORITY_INHERIT) →
      a.pshared = 0x200 →
      (a.type = SYS_SYNC_WAITER_SINGLE ∨ a.type = SYS_SYNC_WAITER_MULTIPLE) →
      ∃ m1 id, sys_event_flag_create m eflag_id attr init = (CELL_OK, m1, some id) ∧
        m1.CheckId id = some ⟨init, [], [], a.protocol, a.type, a.name_u64⟩ ∧
        ∀ i, i ≠ id → m1.CheckId i = m.CheckId i) := by
  refine ⟨?_, ?_, ?_⟩
  · rintro (h | h)
    · subst h
      rfl
    · subst h
      cases eflag_id <;> rfl
  · intro p a hp ha hbad
    subst hp
    subst ha
    simp only [sys_event_flag_create]
    by_cases h1 : a.protocol = SYS_SYNC_PRIORITY ∨ a.protocol = SYS_SYNC_RETRY ∨
        a.protocol = SYS_SYNC_PRIORITY_INHERIT ∨ a.protocol = SYS_SYNC_FIFO
    · rw [if_neg (not_not.2 h1)]
      by_cases h2 : a.pshared = 0x200
      · rw [if_neg (not_not.2 h2)]
        by_cases h3 : a.type = SYS_SYNC_WAITER_SINGLE ∨ a.type = SYS_SYNC_WAITER_MULTIPLE
        · exfalso
          rcases hbad with hb | hb | hb
          · exact hb (by tauto)
          · exact hb h2
          · exact hb h3
        · rw [if_pos h3]
      · rw [if_pos h2]
    · rw [if_pos h1]
  · intro p a hp ha h1 h2 h3
    subst hp
    subst ha
    have h1a : a.protocol = SYS_SYNC_PRIORITY ∨ a.protocol = SYS_SYNC_RETRY ∨
        a.protocol = SYS_SYNC_PRIORITY_INHERIT ∨ a.protocol = SYS_SYNC_FIFO := by tauto
    refine ⟨(m.GetNewId (EventFlag.create init a.protocol a.type a.name_u64)).2, m.next_id,
      ?_, ?_, ?_⟩
    · simp only [sys_event_flag_create]
      rw [if_neg (not_not.2 h1a), if_neg (not_not.2 h2), if_neg (not_not.2 h3)]
      rfl
    · simp [IdManager.GetNewId, IdManager.CheckId, EventFlag.create]
    · intro i hi
      simp [IdManager.GetNewId, IdManager.CheckId, hi]

/-- Witness of C17: `pshared = 0x100` is refused with `CELL_EINVAL`, and a `PRIORITY` /
`MULTIPLE` attribute with `pshared = 0x200` and `init = 0x5` creates the flag under id `8`. -/
theorem sys_event_flag_create_spec_witness :
    sys_event_flag_create S4_table (some 0)
        (some ⟨SYS_SYNC_PRIORITY, 0x100, SYS_SYNC_WAITER_MULTIPLE, 0⟩) 0x5 =
      (CELL_EINVAL, S4_table, some 0) ∧
    ∃ m1 id, sys_event_flag_create S4_table (some 0)
        (some ⟨SYS_SYNC_PRIORITY, 0x200, SYS_SYNC_WAITER_MULTIPLE, 0⟩) 0x5 =
        (CELL_OK, m1, some id) ∧
      m1.CheckId id =
        some ⟨0x5, [], [], SYS_SYNC_PRIORITY, SYS_SYNC_WAITER_MULTIPLE, 0⟩ ∧
      ∀ i, i ≠ id → m1.CheckId i = S4_table.CheckId i :=
  ⟨(sys_event_flag_create_spec S4_table (some 0)
      (some ⟨SYS_SYNC_PRIORITY, 0x100, SYS_SYNC_WAITER_MULTIPLE, 0⟩) 0x5).2.1 0
      ⟨SYS_SYNC_PRIORITY, 0x100, SYS_SYNC_WAITER_MULTIPLE, 0⟩ rfl rfl
      (Or.inr (Or.inl (by decide))),
    (sys_event_flag_create_spec S4_table (some 0)
      (some ⟨SYS_SYNC_PRIORITY, 0x200, SYS_SYNC_WAITER_MULTIPLE, 0⟩) 0x5).2.2 0
      ⟨SYS_SYNC_PRIORITY, 0x200, SYS_SYNC_WAITER_MULTIPLE, 0⟩ rfl rfl
      (Or.inr (Or.inl rfl)) rfl (Or.inr rfl)⟩

/-- C18 (the code at the failing input): `sys_event_flag_create` accepts the protocols `RETRY`
and `PRIORITY_INHERIT` and registers the flag with the protocol as given.  With flags `0x1`, one
waiter (thread `5`, AND `0x1`) and thread `5` of priority `100`, `check` on the `PRIORITY`
object returns `5`, while on the otherwise identical `RETRY` or `PRIORITY_INHERIT` object it
aborts on its own assertion "unknown protocol", or returns `0` (the waiter is never selected)
when assertions are compiled out. -/
theorem EventFlag_check_retry_priority_inherit :
    (sys_event_flag_create S4_table (some 0)
        (some ⟨SYS_SYNC_RETRY, 0x200, SYS_SYNC_WAITER_MULTIPLE, 0⟩) 0x1).1 = CELL_OK ∧
    (sys_event_flag_create S4_table (some 0)
        (some ⟨SYS_SYNC_RETRY, 0x200, SYS_SYNC_WAITER_MULTIPLE, 0⟩) 0x1).2.1.CheckId 8 =
      some ⟨0x1, [], [], SYS_SYNC_RETRY, SYS_SYNC_WAITER_MULTIPLE, 0⟩ ∧
    (sys_event_flag_create S4_table (some 0)
        (some ⟨SYS_SYNC_PRIORITY_INHERIT, 0x200, SYS_SYNC_WAITER_MULTIPLE, 0⟩) 0x1).2.1.CheckId 8
      = some ⟨0x1, [], [], SYS_SYNC_PRIORITY_INHERIT, SYS_SYNC_WAITER_MULTIPLE, 0⟩ ∧
    EventFlag.check false (fun _ => some 100)
        ⟨0x1, [], [⟨5, 0x1, 0x1⟩], SYS_SYNC_PRIORITY, SYS_SYNC_WAITER_MULTIPLE, 0⟩ = some 5 ∧
    EventFlag.check true (fun _ => some 100)
        ⟨0x1, [], [⟨5, 0x1, 0x1⟩], SYS_SYNC_PRIORITY, SYS_SYNC_WAITER_MULTIPLE, 0⟩ = some 5 ∧
    EventFlag.check false (fun _ => some 100)
        ⟨0x1, [], [⟨5, 0x1, 0x1⟩], SYS_SYNC_RETRY, SYS_SYNC_WAITER_MULTIPLE, 0⟩ = none ∧
    EventFlag.check true (fun _ => some 100)
        ⟨0x1, [], [⟨5, 0x1, 0x1⟩], SYS_SYNC_RETRY, SYS_SYNC_WAITER_MULTIPLE, 0⟩ = some 0 ∧
    EventFlag.check false (fun _ => some 100)
        ⟨0x1, [], [⟨5, 0x1, 0x1⟩], SYS_SYNC_PRIORITY_INHERIT, SYS_SYNC_WAITER_MULTIPLE, 0⟩
      = none ∧
    EventFlag.check true (fun _ => some 100)
        ⟨0x1, [], [⟨5, 0x1, 0x1⟩], SYS_SYNC_PRIORITY_INHERIT, SYS_SYNC_WAITER_MULTIPLE, 0⟩
      = some 0 :=
  ⟨rfl, rfl, rfl, by decide, by decide, by decide, by decide, by decide, by decide⟩

/-- C19 (the code at the failing input): thread `21` waits on the flag of id `7` (value `0`,
no waiter) for `bitptn = 0x3`, mode `AND`, with `timeout = 1000` µs, so `max_counter = 1`.
Never signalled, with the emulator running, it is still in the loop after
`timeout/1000 + 1 = 2` passes (2 sleeps of 1 ms) and returns `CELL_ETIMEDOUT` only in pass `3`,
because the test is `counter++ > max_counter`. -/
theorem sys_event_flag_wait_timeout_1000 :
    sys_event_flag_wait_entry false (fun _ => some 1000) 21
        ⟨fun i => if i = 7 then
          some ⟨0x0, [], [], SYS_SYNC_FIFO, SYS_SYNC_WAITER_MULTIPLE, 0⟩ else none, 8⟩
        7 0x3 0x1 (some 9) 1000 =
      some (.poll
        (IdManager.store ⟨fun i => if i = 7 then
          some ⟨0x0, [], [], SYS_SYNC_FIFO, SYS_SYNC_WAITER_MULTIPLE, 0⟩ else none, 8⟩ 7
          ⟨0x0, [], [⟨21, 0x1, 0x3⟩], SYS_SYNC_FIFO, SYS_SYNC_WAITER_MULTIPLE, 0⟩)
        (some 0) 0 1) ∧
    sys_event_flag_wait_passes false (fun _ => some 1000) false 21 0x3 0x1 (some 0) 1 2
        ⟨0x0, [], [⟨21, 0x1, 0x3⟩], SYS_SYNC_FIFO, SYS_SYNC_WAITER_MULTIPLE, 0⟩ 0 =
      some (.again ⟨0x0, [], [⟨21, 0x1, 0x3⟩], SYS_SYNC_FIFO, SYS_SYNC_WAITER_MULTIPLE, 0⟩ 2) ∧
    sys_event_flag_wait_passes false (fun _ => some 1000) false 21 0x3 0x1 (some 0) 1 3
        ⟨0x0, [], [⟨21, 0x1, 0x3⟩], SYS_SYNC_FIFO, SYS_SYNC_WAITER_MULTIPLE, 0⟩ 0 =
      some (.ret CELL_ETIMEDOUT
        ⟨0x0, [], [], SYS_SYNC_FIFO, SYS_SYNC_WAITER_MULTIPLE, 0⟩ (some 0)) :=
  ⟨rfl, by decide, by decide⟩

/-- C20 (claim as stated, refuted): `GPR[1]` of a PPU thread is a 64-bit register.  With
`GPR[1] = 0x100001000`, stack base `0xD0000000`, `size = 8` and `align = 16`, `stack_push`
fails (returns `0`) but leaves `GPR[1] = 0x1000`, not the value it had before the call, and
reports `0x1000` as `old_pos`.  With `GPR[1] = 0x1D0010000` it succeeds with `0xD000FFF0` and
leaves that in `GPR[1]`, not `0x1D000FFF0`. -/
theorem stack_push_ppu_high_bits_counterexample :
    stack_push false ⟨.CPU_THREAD_PPU, 0x100001000, 0, 0xD0000000⟩ 8 16 0 =
      some (0, ⟨.CPU_THREAD_PPU, 0x1000, 0, 0xD0000000⟩, 0x1000) ∧
    (0x1000 : Nat) ≠ 0x100001000 ∧
    stack_push false ⟨.CPU_THREAD_PPU, 0x1D0010000, 0, 0xD0000000⟩ 8 16 0 =
      some (0xD000FFF0, ⟨.CPU_THREAD_PPU, 0xD000FFF0, 0, 0xD0000000⟩, 0xD0010000) ∧
    (0x1D0010000 - align 8 8) / 16 * 16 = 0x1D000FFF0 := by
  refine ⟨by decide, by decide, by decide, by decide⟩

/-- C20 (amended): for a PPU thread whose `GPR[1]` holds a 32-bit value (slot 8) or an ARMv7
thread (slot 4, register `SP`), every power-of-two `align` below `2^32` and every `size` whose
rounding up to a multiple of the slot does not exceed the stack register, `stack_push`
subtracts the rounded size from the register and rounds the result down to a multiple of
`align`.  If that value is below the stack base, `stack_push` returns `0` and the thread is as
before the call; otherwise it stores the value in the stack register and returns it.  In both
cases `old_pos` is the previous value of the register. -/
theorem stack_push_spec (ndebug : Bool) (CPU : CPUThread) (size k old_pos : Nat)
    (hk : k < 32) :
    (CPU.type = .CPU_THREAD_PPU → CPU.GPR1 < 2 ^ 32 → align size 8 ≤ CPU.GPR1 →
      stack_push ndebug CPU size (2 ^ k) old_pos =
        if (CPU.GPR1 - align size 8) / 2 ^ k * 2 ^ k < CPU.stack_addr then
          some (0, CPU, CPU.GPR1)
        else
          some ((CPU.GPR1 - align size 8) / 2 ^ k * 2 ^ k,
            { CPU with GPR1 := (CPU.GPR1 - align size 8) / 2 ^ k * 2 ^ k }, CPU.GPR1)) ∧
    (CPU.type = .CPU_THREAD_ARMv7 → CPU.SP < 2 ^ 32 → align size 4 ≤ CPU.SP →
      stack_push ndebug CPU size (2 ^ k) old_pos =
        if (CPU.SP - align size 4) / 2 ^ k * 2 ^ k < CPU.stack_addr then
          some (0, CPU, CPU.SP)
        else
          some ((CPU.SP - align size 4) / 2 ^ k * 2 ^ k,
            { CPU with SP := (CPU.SP - align size 4) / 2 ^ k * 2 ^ k }, CPU.SP)) := by
  obtain ⟨ty, G, S, base⟩ := CPU
  constructor
  · intro ht hG hnw
    simp only at ht hG hnw
    subst ht
    rw [stack_push_ppu_eq ndebug G S base size k old_pos hG hk,
      spec_new_top_nowrap G size 8 k hG hnw]
  · intro ht hS hnw
    simp only at ht hS hnw
    subst ht
    rw [stack_push_arm_eq ndebug G S base size k old_pos hk,
      spec_new_top_nowrap S size 4 k hS hnw]

/-- Witness of C20 (amended): a PPU thread with `GPR[1] = 0xD0010000` and stack base
`0xD0000000` pushes 20 bytes with `align = 16` and gets `0xD000FFE0`; an ARMv7 thread with
`SP = 0x1010` and stack base `0x1000` pushes 32 bytes with `align = 8` and fails. -/
theorem stack_push_spec_witness :
    stack_push false ⟨.CPU_THREAD_PPU, 0xD0010000, 0, 0xD0000000⟩ 20 (2 ^ 4) 0 =
      some (0xD000FFE0, ⟨.CPU_THREAD_PPU, 0xD000FFE0, 0, 0xD0000000⟩, 0xD0010000) ∧
    stack_push false ⟨.CPU_THREAD_ARMv7, 0, 0x1010, 0x1000⟩ 32 (2 ^ 3) 0 =
      some (0, ⟨.CPU_THREAD_ARMv7, 0, 0x1010, 0x1000⟩, 0x1010) := by
  have h1 := (stack_push_spec false ⟨.CPU_THREAD_PPU, 0xD0010000, 0, 0xD0000000⟩ 20 4 0
    (by decide)).1 rfl (by decide) (by decide)
  have h2 := (stack_push_spec false ⟨.CPU_THREAD_ARMv7, 0, 0x1010, 0x1000⟩ 32 3 0
    (by decide)).2 rfl (by decide) (by decide)
  exact ⟨h1, h2⟩

/-- C21: for every guest base (the start of the 4 GiB guest view, so
`guest_base + 2^32 ≤ 2^64`) and every host pointer `p`, `get_addr` returns `p - guest_base`
when that offset fits in 32 bits, throws when it does not and `p` is non-null, and returns `0`
for the null pointer; and `get_addr (guest_base + a) = a` for every 32-bit guest address
`a`. -/
theorem get_addr_spec (g_base_addr p : Nat) (hp : p < 2 ^ 64)
    (hbase : g_base_addr + 2 ^ 32 ≤ 2 ^ 64) :
    ((g_base_addr ≤ p ∧ p - g_base_addr < 2 ^ 32) →
      get_addr g_base_addr p = some (p - g_base_addr)) ∧
    (¬ (g_base_addr ≤ p ∧ p - g_base_addr < 2 ^ 32) → p ≠ 0 →
      get_addr g_base_addr p = none) ∧
    (p = 0 → get_addr g_base_addr p = some 0) ∧
    (∀ a, a < 2 ^ 32 → get_addr g_base_addr (g_base_addr + a) = some a) := by
  have hb : g_base_addr % 2 ^ 64 = g_base_addr := Nat.mod_eq_of_lt (by omega)
  refine ⟨?_, ?_, ?_, ?_⟩
  · rintro ⟨h1, h2⟩
    have hd : (p + 2 ^ 64 - g_base_addr) % 2 ^ 64 = p - g_base_addr := by omega
    have hr : (p - g_base_addr) % 2 ^ 32 = p - g_base_addr := Nat.mod_eq_of_lt h2
    simp only [get_addr, hb, hd, hr, if_true]
  · intro h hne
    have hd : (p + 2 ^ 64 - g_base_addr) % 2 ^ 64 % 2 ^ 32 ≠
        (p + 2 ^ 64 - g_base_addr) % 2 ^ 64 := by omega
    simp only [get_addr, hb, if_neg hd, hne, ne_eq, not_false_eq_true, if_true]
  · intro h0
    subst h0
    by_cases hz : g_base_addr = 0
    · subst hz
      decide
    · have hd : (0 + 2 ^ 64 - g_base_addr) % 2 ^ 64 % 2 ^ 32 ≠
          (0 + 2 ^ 64 - g_base_addr) % 2 ^ 64 := by omega
      simp only [get_addr, hb, if_neg hd, ne_eq, not_true_eq_false, if_false]
  · intro a ha
    have hd : (g_base_addr + a + 2 ^ 64 - g_base_addr) % 2 ^ 64 = a := by omega
    have hr : a % 2 ^ 32 = a := Nat.mod_eq_of_lt ha
    simp only [get_addr, hb, hd, hr, if_true]

/-- Witness of C21: guest base `0x7F0000000000`; the pointer at offset `0x10000`
translates to `0x10000`. -/
theorem get_addr_spec_witness :
    get_addr 0x7F0000000000 0x7F0000010000 = some 0x10000 :=
  (get_addr_spec 0x7F0000000000 0x7F0000010000 (by decide) (by decide)).1
    ⟨by decide, by decide⟩

/-- C22 (claim as stated, refuted): an ARMv7 thread with `SP = 0x1010` and stack base `0x1000`
pushes `0x2000` bytes with `align = 16`: the subtraction wraps modulo `2^32`, the stack-base
test passes and `stack_push` succeeds with `0xFFFFF010`, which lies above the old top.  A PPU
thread with `GPR[1] = 0x1D0010000` pushes 8 bytes and pops: `GPR[1]` ends as `0xD0010000`, not
the value it had before the push. -/
theorem stack_push_pop_counterexample :
    stack_push false ⟨.CPU_THREAD_ARMv7, 0, 0x1010, 0x1000⟩ 0x2000 16 0 =
      some (0xFFFFF010, ⟨.CPU_THREAD_ARMv7, 0, 0xFFFFF010, 0x1000⟩, 0x1010) ∧
    ¬ (0xFFFFF010 + 0x2000 ≤ 0x1010) ∧
    stack_push false ⟨.CPU_THREAD_PPU, 0x1D0010000, 0, 0xD0000000⟩ 8 16 0 =
      some (0xD000FFF0, ⟨.CPU_THREAD_PPU, 0xD000FFF0, 0, 0xD0000000⟩, 0xD0010000) ∧
    stack_pop false ⟨.CPU_THREAD_PPU, 0xD000FFF0, 0, 0xD0000000⟩ 0xD000FFF0 0xD0010000 =
      some ⟨.CPU_THREAD_PPU, 0xD0010000, 0, 0xD0000000⟩ ∧
    (0xD0010000 : Nat) ≠ 0x1D0010000 := by
  refine ⟨by decide, by decide, by decide, by decide, by decide⟩

/-- C22 (amended): for a PPU or ARMv7 thread whose stack register holds a 32-bit value that is
at least the size rounded up to the slot, and a power-of-two `align` below `2^32`, whenever
`stack_push` succeeds (returns a non-zero `new_top`): `stack_base ≤ new_top`, `new_top` is a
multiple of `align`, `new_top + size ≤ old_top`, `old_pos` is the old top, and the following
`stack_pop(cpu, new_top, old_pos)` passes its balance check and leaves the thread as it was
before the push. -/
theorem stack_push_pop_spec (ndebug : Bool) (CPU CPU1 : CPUThread)
    (size k old_pos0 new_top old_pos : Nat) (hk : k < 32)
    (htype : CPU.type = .CPU_THREAD_PPU ∨ CPU.type = .CPU_THREAD_ARMv7)
    (hreg : CPU.stack_reg < 2 ^ 32) (hnowrap : align size CPU.slot ≤ CPU.stack_reg)
    (hpush : stack_push ndebug CPU size (2 ^ k) old_pos0 = some (new_top, CPU1, old_pos))
    (hok : new_top ≠ 0) :
    CPU.stack_addr ≤ new_top ∧ 2 ^ k ∣ new_top ∧ new_top + size ≤ CPU.stack_reg ∧
      old_pos = CPU.stack_reg ∧ stack_pop ndebug CPU1 new_top old_pos = some CPU := by
  obtain ⟨ty, G, S, base⟩ := CPU
  rcases htype with ht | ht
  · simp only at ht
    subst ht
    simp only [CPUThread.stack_reg, CPUThread.slot] at hreg hnowrap ⊢
    obtain ⟨hdvd, hroom⟩ := spec_new_top_bounds G size 8 k (Or.inl rfl) hreg hnowrap
    rw [stack_push_ppu_eq ndebug G S base size k old_pos0 hreg hk] at hpush
    split_ifs at hpush with hlt
    · simp only [Option.some.injEq, Prod.mk.injEq] at hpush
      exact absurd hpush.1.symm hok
    · simp only [Option.some.injEq, Prod.mk.injEq] at hpush
      obtain ⟨h1, h2, h3⟩ := hpush
      subst h1
      subst h2
      subst h3
      refine ⟨by omega, hdvd, hroom, rfl, ?_⟩
      simp [stack_pop]
  · simp only at ht
    subst ht
    simp only [CPUThread.stack_reg, CPUThread.slot] at hreg hnowrap ⊢
    obtain ⟨hdvd, hroom⟩ := spec_new_top_bounds S size 4 k (Or.inr rfl) hreg hnowrap
    rw [stack_push_arm_eq ndebug G S base size k old_pos0 hk] at hpush
    split_ifs at hpush with hlt
    · simp only [Option.some.injEq, Prod.mk.injEq] at hpush
      exact absurd hpush.1.symm hok
    · simp only [Option.some.injEq, Prod.mk.injEq] at hpush
      obtain ⟨h1, h2, h3⟩ := hpush
      subst h1
      subst h2
      subst h3
      refine ⟨by omega, hdvd, hroom, rfl, ?_⟩
      simp [stack_pop]

/-- Witness of C22 (amended): a PPU thread with `GPR[1] = 0xD0010000` and stack base
`0xD0000000` pushes 20 bytes with `align = 16`, gets `0xD000FFE0`, and pops. -/
theorem stack_push_pop_spec_witness :
    stack_push false ⟨.CPU_THREAD_PPU, 0xD0010000, 0, 0xD0000000⟩ 20 (2 ^ 4) 0 =
      some (0xD000FFE0, ⟨.CPU_THREAD_PPU, 0xD000FFE0, 0, 0xD0000000⟩, 0xD0010000) ∧
    (0xD0000000 ≤ 0xD000FFE0 ∧ 2 ^ 4 ∣ 0xD000FFE0 ∧ 0xD000FFE0 + 20 ≤ 0xD0010000 ∧
      0xD0010000 = 0xD0010000 ∧
      stack_pop false ⟨.CPU_THREAD_PPU, 0xD000FFE0, 0, 0xD0000000⟩ 0xD000FFE0 0xD0010000 =
        some ⟨.CPU_THREAD_PPU, 0xD0010000, 0, 0xD0000000⟩) :=
  ⟨by decide,
    stack_push_pop_spec false ⟨.CPU_THREAD_PPU, 0xD0010000, 0, 0xD0000000⟩
      ⟨.CPU_THREAD_PPU, 0xD000FFE0, 0, 0xD0000000⟩ 20 4 0 0xD000FFE0 0xD0010000 (by decide)
      (Or.inl rfl) (by decide) (by decide) (by decide) (by decide)⟩

end rpcs3
